import Mathlib

/-!
# Receipt backend: repositories and ownership-checked receipt service

A shallow embedding of `internal/domain`, `internal/repository`,
`internal/service` and `internal/middleware` of the receipt backend.

* Go structs become Lean structures with the same field names.
* The relational store is a record of tables (lists of rows, in heap order)
  together with its sequences.
* Every method takes the current `World` and returns its Go results next to
  the world after the call.  The world carries the store, the clock, the
  script of driver faults still to come (one entry per SQL statement sent),
  and the log of repository calls made so far.
* A Go `(value, error)` pair is an `Outcome`; a runtime panic is its own
  constructor.
-/

namespace ReceiptBackend

/-! ## Go base types -/

/-- Width of the Go `int` type on the 64-bit targets the service is built for. -/
def intBits : Nat := 64

/-- Largest value of a Go `int`. -/
def maxInt : Int := 2 ^ (intBits - 1) - 1

/-- Smallest value of a Go `int`. -/
def minInt : Int := -(2 ^ (intBits - 1))

/-- Two's-complement wrap-around of a mathematical integer into a Go `int`. -/
def wrapInt (x : Int) : Int := (x + 2 ^ (intBits - 1)) % 2 ^ intBits - 2 ^ (intBits - 1)

/-- The value of `uuid.UUID`, kept as the number its 16 bytes encode. -/
abbrev UUID := Nat

/-- The instant of a `time.Time`, in seconds of the Unix epoch. -/
abbrev Time := Int

/-- The value of a finite `float64` amount. Amounts are only copied and compared
as values; arithmetic on them goes through `FloatArith`, never through the
exact operations of the rationals. -/
abbrev Float64 := ℚ

/-- Go `error` values, as far as the repositories and services build them. -/
inductive GoError where
  /-- The sentinel `sql.ErrNoRows`. -/
  | ErrNoRows
  /-- An error reported by the database driver for a statement. -/
  | driver (msg : String)
  /-- The value of `fmt.Errorf(msg)` with no wrapped error. -/
  | errorf (msg : String)
  /-- The value of `fmt.Errorf(pfx + "%w", inner)`. -/
  | wrapf (pfx : String) (inner : GoError)
  deriving DecidableEq, Repr

/-- The text of `err.Error()`. -/
def GoError.Error : GoError → String
  | .ErrNoRows => "sql: no rows in result set"
  | .driver msg => msg
  | .errorf msg => msg
  | .wrapf pfx inner => pfx ++ inner.Error

/-- What a call with Go result `(*T, error)` does: return a value with a nil
error, return nil with an error, or panic at run time. -/
inductive Outcome (α : Type) where
  | ok (val : α)
  | error (err : GoError)
  | panic (msg : String)
  deriving DecidableEq, Repr

deriving instance DecidableEq for Except

/-- The message of the run-time panic raised by dereferencing a nil pointer. -/
def nilDeref : String := "runtime error: invalid memory address or nil pointer dereference"

/-- The value of `sql.NullString`. -/
structure NullString where
  Str : String
  Valid : Bool
  deriving DecidableEq, Repr

/-- The value of `sql.NullInt64`. -/
structure NullInt64 where
  Int64 : Int
  Valid : Bool
  deriving DecidableEq, Repr

/-- The value of `sql.NullTime`. -/
structure NullTime where
  Time : Time
  Valid : Bool
  deriving DecidableEq, Repr

/-! ## internal/domain -/

/-- The type `domain.ReceiptStatus`, a Go string. -/
abbrev ReceiptStatus := String

/-- The constant `domain.StatusPending`. -/
def StatusPending : ReceiptStatus := "pending"

/-- The constant `domain.StatusProcessing`. -/
def StatusProcessing : ReceiptStatus := "processing"

/-- The constant `domain.StatusCompleted`. -/
def StatusCompleted : ReceiptStatus := "completed"

/-- The constant `domain.StatusFailed`. -/
def StatusFailed : ReceiptStatus := "failed"

/-- The struct `domain.Receipt`. -/
structure Receipt where
  ID : Int
  UUID : UUID
  UserID : Int
  StoreName : NullString
  Address : NullString
  Phone : NullInt64
  Date : NullTime
  ImageURL : String
  OriginalFilename : String
  FileSize : Int
  UploadDate : Time
  Status : ReceiptStatus
  TotalItems : Int
  TotalSpending : Float64
  TotalDiscount : Float64
  CreatedAt : Time
  UpdatedAt : Time
  CreatedAtUnix : Int
  UpdatedAtUnix : Int
  deriving DecidableEq, Repr

/-- The struct `domain.Item`. -/
structure Item where
  ID : Int
  UUID : UUID
  ReceiptID : Int
  Name : String
  UnitPrice : Int
  Quantity : Int
  Price : Int
  Total : Int
  CreatedAt : Time
  CreatedAtUnix : Int
  deriving DecidableEq, Repr

/-- The struct `domain.CreateItemRequest`. -/
structure CreateItemRequest where
  Name : String
  UnitPrice : Int
  Quantity : Int
  Price : Int
  Total : Int
  deriving DecidableEq, Repr

/-- The struct `domain.CreateReceiptRequest`; the pointer fields `Phone` and
`Date` are `none` when nil. -/
structure CreateReceiptRequest where
  StoreName : String
  Address : String
  Phone : Option Int
  Date : Option String
  TotalItems : Int
  TotalSpending : Float64
  TotalDiscount : Float64
  Items : List CreateItemRequest
  deriving DecidableEq, Repr

/-- The struct `domain.ReceiptWithItems` (a `Receipt` embedded next to its items). -/
structure ReceiptWithItems where
  Receipt : Receipt
  Items : List Item
  deriving DecidableEq, Repr

/-- The struct `domain.User`. -/
structure User where
  ID : Int
  UUID : UUID
  Email : String
  PasswordHash : String
  FullName : String
  CreatedAt : Time
  UpdatedAt : Time
  CreatedAtUnix : Int
  UpdatedAtUnix : Int
  deriving DecidableEq, Repr

/-- The struct `domain.CreateUserRequest`. -/
structure CreateUserRequest where
  Email : String
  Password : String
  FullName : String
  deriving DecidableEq, Repr

/-- The struct `domain.LoginRequest`. -/
structure LoginRequest where
  Email : String
  Password : String
  deriving DecidableEq, Repr

/-- The struct `domain.UserResponse`. -/
structure UserResponse where
  ID : Int
  UUID : String
  Email : String
  FullName : String
  CreatedAt : Time
  CreatedAtUnix : Int
  deriving DecidableEq, Repr

/-- The Go zero value of `domain.User`. -/
def User.zero : User :=
  { ID := 0, UUID := 0, Email := "", PasswordHash := "", FullName := "",
    CreatedAt := 0, UpdatedAt := 0, CreatedAtUnix := 0, UpdatedAtUnix := 0 }

/-- The text of `uuid.UUID.String()`: the 32 lower-case hexadecimal digits of the
16 bytes, grouped 8-4-4-4-12. -/
def UUID.String (u : UUID) : String :=
  let digits := Nat.toDigits 16 (u % 2 ^ 128)
  let hex := String.mk (List.replicate (32 - digits.length) '0' ++ digits)
  (hex.take 8) ++ "-" ++ ((hex.drop 8).take 4) ++ "-" ++ ((hex.drop 12).take 4) ++ "-" ++
    ((hex.drop 16).take 4) ++ "-" ++ (hex.drop 20)

/-- Method `User.ToResponse`. -/
def User.ToResponse (u : User) : UserResponse :=
  { ID := u.ID
    UUID := UUID.String u.UUID
    Email := u.Email
    FullName := u.FullName
    CreatedAt := u.CreatedAt
    CreatedAtUnix := u.CreatedAtUnix }

/-- The Go zero value of `domain.Receipt`. -/
def Receipt.zero : Receipt :=
  { ID := 0, UUID := 0, UserID := 0,
    StoreName := ⟨"", false⟩, Address := ⟨"", false⟩, Phone := ⟨0, false⟩, Date := ⟨0, false⟩,
    ImageURL := "", OriginalFilename := "", FileSize := 0, UploadDate := 0, Status := "",
    TotalItems := 0, TotalSpending := 0, TotalDiscount := 0,
    CreatedAt := 0, UpdatedAt := 0, CreatedAtUnix := 0, UpdatedAtUnix := 0 }

/-- The Go zero value of `domain.Item`. -/
def Item.zero : Item :=
  { ID := 0, UUID := 0, ReceiptID := 0, Name := "", UnitPrice := 0, Quantity := 0,
    Price := 0, Total := 0, CreatedAt := 0, CreatedAtUnix := 0 }

/-! ## The store and the world around a call -/

/-- Modelled from the spec: the relational store behind the repositories (its
migrations are not part of the sources at hand). Tables are lists of rows in
insertion order; identifiers and external identifiers are generated by the
store on insert from sequences that never hand out a value twice. Whether
deleting a receipt cascades to its items is a schema choice, kept as a flag. -/
structure Store where
  receipts : List Receipt
  items : List Item
  receiptSeq : Int
  itemSeq : Int
  uuidSeq : Nat
  itemsCascade : Bool
  users : List User := []
  userSeq : Int := 1
  deriving DecidableEq, Repr

/-- One call of a repository method, with its arguments as passed. -/
inductive Call where
  | receiptCreate (receipt : Receipt)
  | receiptFindByID (id : Int)
  | receiptFindByUserID (userID page limit : Int)
  | receiptUpdate (receipt : Receipt)
  | receiptDelete (id : Int)
  | itemCreateBatch (items : List Item)
  | itemFindByReceiptID (receiptID : Int)
  | receiptGetStatsByUserID (userID : Int)
  | userCreate (user : User)
  | userFindByEmail (email : String)
  | userFindByID (id : Int)
  | userUpdate (user : User)
  deriving DecidableEq, Repr

/-- The state a call runs in: the store, the wall clock (`time.Now()` and the
store's `NOW()`), the driver faults still to come (entry `k` is the fate of the
`k`-th SQL statement sent from now on: `none` lets the store execute it,
`some msg` makes the driver fail it with `msg` and no effect; past the end of
the script every statement is executed), and the repository calls so far. -/
structure World where
  store : Store
  clock : Int
  faults : List (Option String)
  log : List Call
  deriving DecidableEq, Repr

/-- Note a repository call in the log. -/
def World.record (w : World) (c : Call) : World :=
  { w with log := w.log ++ [c] }

/-- Send one SQL statement: take the next entry of the fault script. -/
def World.send (w : World) : Option String × World :=
  match w.faults with
  | [] => (none, w)
  | f :: rest => (f, { w with faults := rest })

/-- The repository calls made between two worlds. -/
def World.callsSince (before after : World) : List Call :=
  after.log.drop before.log.length

/-- The store executes each of the next `n` statements (no driver fault). -/
def World.answers (w : World) (n : Nat) : Bool :=
  (w.faults.take n).all (fun f => f.isNone)

/-! ## internal/repository/receipt_repository.go -/

/-- The row written by the `INSERT ... RETURNING` of `Create`: the columns
passed by the caller, with the store filling in `id`, `uuid`, `upload_date`,
`created_at` and `updated_at`. -/
def insertedReceipt (receipt : Receipt) (now : Int) (w : World) : Receipt :=
  { receipt with
    ID := w.store.receiptSeq, UUID := w.store.uuidSeq,
    UploadDate := w.clock, CreatedAt := w.clock, UpdatedAt := w.clock,
    CreatedAtUnix := now, UpdatedAtUnix := now }

/-- Method `receiptRepository.Create`: returns the error (nil as `none`), the
receipt as left behind the pointer, and the world after the call. -/
def receiptRepository.Create (receipt : Receipt) (w : World) :
    Option GoError × Receipt × World :=
  let w := w.record (.receiptCreate receipt)
  let now := w.clock
  match w.send with
  | (some msg, w) => (some (.wrapf "failed to create receipt: " (.driver msg)), receipt, w)
  | (none, w) =>
    let row := insertedReceipt receipt now w
    (none, row,
      { w with store := { w.store with
          receipts := w.store.receipts ++ [row],
          receiptSeq := w.store.receiptSeq + 1,
          uuidSeq := w.store.uuidSeq + 1 } })

/-- The statement `SELECT ... FROM receipts WHERE id = $1` run through
`QueryRow(...).Scan(...)`: the first matching row, `sql.ErrNoRows` when there
is none, or the driver's error. -/
def queryReceiptByID (id : Int) (w : World) : Except GoError Receipt × World :=
  match w.send with
  | (some msg, w) => (.error (.driver msg), w)
  | (none, w) =>
    match w.store.receipts.find? (fun r => r.ID == id) with
    | some r => (.ok r, w)
    | none => (.error .ErrNoRows, w)

/-- Method `receiptRepository.FindByID`. -/
def receiptRepository.FindByID (id : Int) (w : World) : Except GoError Receipt × World :=
  let w := w.record (.receiptFindByID id)
  match queryReceiptByID id w with
  | (.error err, w) =>
    if err = .ErrNoRows then (.error (.errorf "receipt not found"), w)
    else (.error (.wrapf "failed to find receipt: " err), w)
  | (.ok receipt, w) => (.ok receipt, w)

/-- The clause `ORDER BY upload_date DESC`: a stable sort of the rows. -/
def orderByUploadDateDesc (rows : List Receipt) : List Receipt :=
  rows.insertionSort (fun a b => a.UploadDate ≥ b.UploadDate)

/-- The statement `SELECT ... FROM receipts WHERE user_id = $1 ORDER BY
upload_date DESC LIMIT $2 OFFSET $3`; the store rejects a negative `LIMIT` or
`OFFSET`. -/
def queryReceiptsByUserID (userID limit offset : Int) (w : World) :
    Except GoError (List Receipt) × World :=
  match w.send with
  | (some msg, w) => (.error (.driver msg), w)
  | (none, w) =>
    if limit < 0 then (.error (.driver "pq: LIMIT must not be negative"), w)
    else if offset < 0 then (.error (.driver "pq: OFFSET must not be negative"), w)
    else
      (.ok (((orderByUploadDateDesc (w.store.receipts.filter (fun r => r.UserID == userID))).drop
        offset.toNat).take limit.toNat), w)

/-- The statement `SELECT COUNT(*) FROM receipts WHERE user_id = $1`. -/
def countReceiptsByUserID (userID : Int) (w : World) : Except GoError Int × World :=
  match w.send with
  | (some msg, w) => (.error (.driver msg), w)
  | (none, w) => (.ok ((w.store.receipts.filter (fun r => r.UserID == userID)).length : Int), w)

/-- Method `receiptRepository.FindByUserID`: on success the page and the total
count; the offset is computed in Go `int` arithmetic. -/
def receiptRepository.FindByUserID (userID page limit : Int) (w : World) :
    Except GoError (List Receipt × Int) × World :=
  let w := w.record (.receiptFindByUserID userID page limit)
  match countReceiptsByUserID userID w with
  | (.error err, w) => (.error (.wrapf "failed to count receipts: " err), w)
  | (.ok total, w) =>
    let offset := wrapInt (wrapInt (page - 1) * limit)
    match queryReceiptsByUserID userID limit offset w with
    | (.error err, w) => (.error (.wrapf "failed to query receipts: " err), w)
    | (.ok receipts, w) => (.ok (receipts, total), w)

/-- The row left by the `UPDATE receipts SET ... WHERE id = $10` of `Update`. -/
def updatedReceipt (receipt : Receipt) (now : Int) (w : World) (row : Receipt) : Receipt :=
  { row with
    StoreName := receipt.StoreName, Address := receipt.Address, Phone := receipt.Phone,
    Date := receipt.Date, Status := receipt.Status, TotalItems := receipt.TotalItems,
    TotalSpending := receipt.TotalSpending, TotalDiscount := receipt.TotalDiscount,
    UpdatedAt := w.clock, UpdatedAtUnix := now }

/-- Method `receiptRepository.Update`: the statement is run through
`QueryRow(...).Scan(&receipt.UpdatedAt)`, so zero matching rows surface as
`sql.ErrNoRows` inside the wrapped error. -/
def receiptRepository.Update (receipt : Receipt) (w : World) :
    Option GoError × Receipt × World :=
  let w := w.record (.receiptUpdate receipt)
  let now := w.clock
  match w.send with
  | (some msg, w) => (some (.wrapf "failed to update receipt: " (.driver msg)), receipt, w)
  | (none, w) =>
    if w.store.receipts.any (fun r => r.ID == receipt.ID) then
      (none, { receipt with UpdatedAt := w.clock, UpdatedAtUnix := now },
        { w with store := { w.store with
            receipts := w.store.receipts.map
              (fun r => if r.ID == receipt.ID then updatedReceipt receipt now w r else r) } })
    else
      (some (.wrapf "failed to update receipt: " .ErrNoRows), receipt, w)

/-- Method `receiptRepository.Delete`: `DELETE FROM receipts WHERE id = $1`,
then the count of affected rows decides between nil and "receipt not found". -/
def receiptRepository.Delete (id : Int) (w : World) : Option GoError × World :=
  let w := w.record (.receiptDelete id)
  match w.send with
  | (some msg, w) => (some (.wrapf "failed to delete receipt: " (.driver msg)), w)
  | (none, w) =>
    let rowsAffected := (w.store.receipts.filter (fun r => r.ID == id)).length
    let w := { w with store := { w.store with
        receipts := w.store.receipts.filter (fun r => !(r.ID == id)),
        items := if w.store.itemsCascade
                 then w.store.items.filter (fun it => !(it.ReceiptID == id))
                 else w.store.items } }
    if rowsAffected = 0 then (some (.errorf "receipt not found"), w)
    else (none, w)

/-- A value held in the `map[string]interface{}` of the statistics: a Go `int`
or a `float64`. -/
inductive StatValue where
  | int (n : Int)
  | float64 (x : Float64)
  deriving DecidableEq, Repr

/-- The `float64` arithmetic behind the statistics, taken as a parameter so that
no rounding is assumed away: the value that the store's `SUM` and `AVG` of a
non-empty column have once scanned into a `float64` (the column type is
declared in the migrations, which are not part of the sources at hand), and
Go's `float64` subtraction, of which only `0 - 0 = 0` is used. -/
structure FloatArith where
  sum : List Float64 → Float64
  avg : List Float64 → Float64
  sub : Float64 → Float64 → Float64
  sub_zero_zero : sub 0 0 = 0

/-- The SQL aggregate `SUM` of a column: NULL over no rows. -/
def sqlSum (fa : FloatArith) (column : List Float64) : Option Float64 :=
  match column with
  | [] => none
  | x :: rest => some (fa.sum (x :: rest))

/-- The SQL aggregate `AVG` of a column: NULL over no rows. -/
def sqlAvg (fa : FloatArith) (column : List Float64) : Option Float64 :=
  match column with
  | [] => none
  | x :: rest => some (fa.avg (x :: rest))

/-- The SQL function `COALESCE(value, fallback)`. -/
def sqlCoalesce (value : Option Float64) (fallback : Float64) : Float64 :=
  match value with
  | some x => x
  | none => fallback

/-- The statement `SELECT COUNT(*), COALESCE(SUM(total_spending), 0),
COALESCE(SUM(total_discount), 0), COALESCE(AVG(total_spending), 0) FROM receipts
WHERE user_id = $1 AND status = 'completed'`, scanned into an `int` and three
`float64`. -/
def queryStatsByUserID (fa : FloatArith) (userID : Int) (w : World) :
    Except GoError (Int × Float64 × Float64 × Float64) × World :=
  match w.send with
  | (some msg, w) => (.error (.driver msg), w)
  | (none, w) =>
    let rows := w.store.receipts.filter (fun r => r.UserID == userID && r.Status == "completed")
    (.ok ((rows.length : Int),
          sqlCoalesce (sqlSum fa (rows.map (fun r => r.TotalSpending))) 0,
          sqlCoalesce (sqlSum fa (rows.map (fun r => r.TotalDiscount))) 0,
          sqlCoalesce (sqlAvg fa (rows.map (fun r => r.TotalSpending))) 0), w)

/-- Method `receiptRepository.GetStatsByUserID`; the map literal is kept as the
list of its five entries. -/
def receiptRepository.GetStatsByUserID (fa : FloatArith) (userID : Int) (w : World) :
    Except GoError (List (String × StatValue)) × World :=
  let w := w.record (.receiptGetStatsByUserID userID)
  match queryStatsByUserID fa userID w with
  | (.error err, w) => (.error (.wrapf "failed to get stats: " err), w)
  | (.ok (totalReceipts, totalSpending, totalDiscount, avgSpending), w) =>
    (.ok [("total_receipts", .int totalReceipts),
          ("total_spending", .float64 totalSpending),
          ("total_discount", .float64 totalDiscount),
          ("average_spending", .float64 avgSpending),
          ("net_spending", .float64 (fa.sub totalSpending totalDiscount))], w)

/-! ## internal/repository/item_repository.go -/

/-- The row written by one `INSERT INTO items ... RETURNING id, uuid,
created_at` of the batch. -/
def insertedItem (item : Item) (now : Int) (w : World) : Item :=
  { item with
    ID := w.store.itemSeq, UUID := w.store.uuidSeq,
    CreatedAt := w.clock, CreatedAtUnix := now }

/-- The loop `for i := range items` of `CreateBatch`, inside the open
transaction: each element is inserted and stamped in place; the first failing
insert stops the loop. Returns the error, the slice as left behind, and the
world. -/
def insertItems (now : Int) : List Item → World → Option GoError × List Item × World
  | [], w => (none, [], w)
  | item :: rest, w =>
    match w.send with
    | (some msg, w) => (some (.wrapf "failed to insert item: " (.driver msg)), item :: rest, w)
    | (none, w) =>
      let row := insertedItem item now w
      let w := { w with store := { w.store with
          items := w.store.items ++ [row],
          itemSeq := w.store.itemSeq + 1,
          uuidSeq := w.store.uuidSeq + 1 } }
      match insertItems now rest w with
      | (err, rest, w) => (err, row :: rest, w)

/-- The deferred `tx.Rollback()` of a transaction that was not committed: the
rows written since `Begin` are gone (the sequences keep their values). The
code discards the result of the rollback. -/
def rollbackItems (snapshot : List Item) (w : World) : World :=
  { w with store := { w.store with items := snapshot } }

/-- Method `itemRepository.CreateBatch`: `Begin`, `Prepare`, one insert per
item, `Commit`, with `tx.Rollback()` deferred. Returns the error, the slice as
left behind (the caller's slice shares its elements), and the world. -/
def itemRepository.CreateBatch (items : List Item) (w : World) :
    Option GoError × List Item × World :=
  let w := w.record (.itemCreateBatch items)
  match w.send with
  | (some msg, w) => (some (.wrapf "failed to begin transaction: " (.driver msg)), items, w)
  | (none, w) =>
    let snapshot := w.store.items
    match w.send with
    | (some msg, w) =>
      (some (.wrapf "failed to prepare statement: " (.driver msg)), items, rollbackItems snapshot w)
    | (none, w) =>
      let now := w.clock
      match insertItems now items w with
      | (some err, items, w) => (some err, items, rollbackItems snapshot w)
      | (none, items, w) =>
        match w.send with
        | (some msg, w) =>
          (some (.wrapf "failed to commit transaction: " (.driver msg)), items,
            rollbackItems snapshot w)
        | (none, w) => (none, items, w)

/-- The clause `ORDER BY id ASC`: a stable sort of the rows. -/
def orderByIDAsc (rows : List Item) : List Item :=
  rows.insertionSort (fun a b => a.ID ≤ b.ID)

/-- Method `itemRepository.FindByReceiptID`. -/
def itemRepository.FindByReceiptID (receiptID : Int) (w : World) :
    Except GoError (List Item) × World :=
  let w := w.record (.itemFindByReceiptID receiptID)
  match w.send with
  | (some msg, w) => (.error (.wrapf "failed to query items: " (.driver msg)), w)
  | (none, w) =>
    (.ok (orderByIDAsc (w.store.items.filter (fun it => it.ReceiptID == receiptID))), w)

/-! ## internal/repository/user_repository.go -/

/-- Modelled from the spec: the error the store raises when an insert or update
would give two users the same email (the unique constraint on `users.email`;
the migration declaring it is not part of the sources at hand). -/
def duplicateEmail : String :=
  "pq: duplicate key value violates unique constraint \"users_email_key\""

/-- The row written by the `INSERT INTO users ... RETURNING` of `Create`. -/
def insertedUser (user : User) (now : Int) (w : World) : User :=
  { user with
    ID := w.store.userSeq, UUID := w.store.uuidSeq,
    CreatedAt := w.clock, UpdatedAt := w.clock,
    CreatedAtUnix := now, UpdatedAtUnix := now }

/-- Method `userRepository.Create`: returns the error, the user as left behind
the pointer, and the world. An insert refused by the unique constraint on the
email leaves the table as it is (the sequences have moved on). -/
def userRepository.Create (user : User) (w : World) : Option GoError × User × World :=
  let w := w.record (.userCreate user)
  let now := w.clock
  match w.send with
  | (some msg, w) => (some (.wrapf "failed to create user: " (.driver msg)), user, w)
  | (none, w) =>
    if w.store.users.any (fun u => u.Email == user.Email) then
      (some (.wrapf "failed to create user: " (.driver duplicateEmail)), user,
        { w with store := { w.store with
            userSeq := w.store.userSeq + 1,
            uuidSeq := w.store.uuidSeq + 1 } })
    else
      let row := insertedUser user now w
      (none, row,
        { w with store := { w.store with
            users := w.store.users ++ [row],
            userSeq := w.store.userSeq + 1,
            uuidSeq := w.store.uuidSeq + 1 } })

/-- A statement `SELECT ... FROM users WHERE <condition>` run through
`QueryRow(...).Scan(...)`: the first matching row, `sql.ErrNoRows` when there
is none, or the driver's error. -/
def queryUser (condition : User → Bool) (w : World) : Except GoError User × World :=
  match w.send with
  | (some msg, w) => (.error (.driver msg), w)
  | (none, w) =>
    match w.store.users.find? condition with
    | some u => (.ok u, w)
    | none => (.error .ErrNoRows, w)

/-- Method `userRepository.FindByEmail`. -/
def userRepository.FindByEmail (email : String) (w : World) : Except GoError User × World :=
  let w := w.record (.userFindByEmail email)
  match queryUser (fun u => u.Email == email) w with
  | (.error err, w) =>
    if err = .ErrNoRows then (.error (.errorf "user not found"), w)
    else (.error (.wrapf "failed to find user: " err), w)
  | (.ok user, w) => (.ok user, w)

/-- Method `userRepository.FindByID`. -/
def userRepository.FindByID (id : Int) (w : World) : Except GoError User × World :=
  let w := w.record (.userFindByID id)
  match queryUser (fun u => u.ID == id) w with
  | (.error err, w) =>
    if err = .ErrNoRows then (.error (.errorf "user not found"), w)
    else (.error (.wrapf "failed to find user: " err), w)
  | (.ok user, w) => (.ok user, w)

/-- The row left by the `UPDATE users SET email = $1, full_name = $2, updated_at
= NOW(), updated_at_unix = $3 WHERE id = $4` of `Update`. -/
def updatedUser (user : User) (now : Int) (w : World) (row : User) : User :=
  { row with
    Email := user.Email, FullName := user.FullName,
    UpdatedAt := w.clock, UpdatedAtUnix := now }

/-- Method `userRepository.Update`: the statement is run through
`QueryRow(...).Scan(&user.UpdatedAt)`, so zero matching rows surface as
`sql.ErrNoRows` inside the wrapped error. -/
def userRepository.Update (user : User) (w : World) : Option GoError × User × World :=
  let w := w.record (.userUpdate user)
  let now := w.clock
  match w.send with
  | (some msg, w) => (some (.wrapf "failed to update user: " (.driver msg)), user, w)
  | (none, w) =>
    if w.store.users.any (fun u => u.ID == user.ID) then
      if w.store.users.any (fun u => !(u.ID == user.ID) && u.Email == user.Email) then
        (some (.wrapf "failed to update user: " (.driver duplicateEmail)), user, w)
      else
        (none, { user with UpdatedAt := w.clock, UpdatedAtUnix := now },
          { w with store := { w.store with
              users := w.store.users.map
                (fun u => if u.ID == user.ID then updatedUser user now w u else u) } })
    else
      (some (.wrapf "failed to update user: " .ErrNoRows), user, w)

/-! ## internal/service/receipt_service.go -/

/-- The error built by `fmt.Errorf("unauthorized access")`. -/
def errUnauthorized : GoError := .errorf "unauthorized access"

/-- The receipt literal built by `CreateReceipt` once `*req.Phone` has been
read as `phone`. -/
def newReceipt (userID : Int) (req : CreateReceiptRequest) (phone : Int)
    (imageURL filename : String) (fileSize : Int) : Receipt :=
  -- `var date sql.NullTime`; the branch on `req.Date` has an empty body
  let date : NullTime := ⟨0, false⟩
  let date := if req.Date.isSome && req.Date != some "" then date else date
  { Receipt.zero with
    UserID := userID
    StoreName := ⟨req.StoreName, req.StoreName != ""⟩
    Address := ⟨req.Address, req.Address != ""⟩
    Phone := ⟨phone, req.Phone.isSome⟩
    Date := date
    ImageURL := imageURL
    OriginalFilename := filename
    FileSize := fileSize
    Status := StatusCompleted
    TotalItems := req.TotalItems
    TotalSpending := req.TotalSpending
    TotalDiscount := req.TotalDiscount }

/-- The loop of `CreateReceipt` that turns the request items into items of the
receipt with the given id. -/
def newItems (receiptID : Int) (reqItems : List CreateItemRequest) : List Item :=
  reqItems.map (fun itemReq =>
    { Item.zero with
      ReceiptID := receiptID
      Name := itemReq.Name
      UnitPrice := itemReq.UnitPrice
      Quantity := itemReq.Quantity
      Price := itemReq.Price
      Total := itemReq.Total })

/-- Method `receiptService.CreateReceipt`. -/
def receiptService.CreateReceipt (userID : Int) (req : CreateReceiptRequest)
    (imageURL filename : String) (fileSize : Int) (w : World) :
    Outcome ReceiptWithItems × World :=
  match req.Phone with
  | none => (.panic nilDeref, w)
  | some phone =>
    let receipt := newReceipt userID req phone imageURL filename fileSize
    match receiptRepository.Create receipt w with
    | (some err, _, w) => (.error (.wrapf "failed to create receipt:  " err), w)
    | (none, receipt, w) =>
      let items := newItems receipt.ID req.Items
      if items.length > 0 then
        match itemRepository.CreateBatch items w with
        | (some err, _, w) => (.error (.wrapf "failed to create items:  " err), w)
        | (none, items, w) => (.ok { Receipt := receipt, Items := items }, w)
      else
        (.ok { Receipt := receipt, Items := items }, w)

/-- Method `receiptService.GetReceiptByID`. -/
def receiptService.GetReceiptByID (id userID : Int) (w : World) :
    Outcome ReceiptWithItems × World :=
  match receiptRepository.FindByID id w with
  | (.error err, w) => (.error err, w)
  | (.ok receipt, w) =>
    if receipt.UserID ≠ userID then (.error errUnauthorized, w)
    else
      match itemRepository.FindByReceiptID receipt.ID w with
      | (.error err, w) => (.error (.wrapf "failed to get items: " err), w)
      | (.ok items, w) => (.ok { Receipt := receipt, Items := items }, w)

/-- Method `receiptService.UpdateReceipt`. -/
def receiptService.UpdateReceipt (id userID : Int) (req : CreateReceiptRequest) (w : World) :
    Outcome ReceiptWithItems × World :=
  match receiptRepository.FindByID id w with
  | (.error err, w) => (.error err, w)
  | (.ok receipt, w) =>
    if receipt.UserID ≠ userID then (.error errUnauthorized, w)
    else
      let receipt := { receipt with StoreName := ⟨req.StoreName, req.StoreName != ""⟩ }
      let receipt := { receipt with Address := ⟨req.Address, req.Address != ""⟩ }
      match req.Phone with
      | none => (.panic nilDeref, w)
      | some phone =>
        let receipt := { receipt with Phone := ⟨phone, req.Phone.isSome⟩ }
        let receipt := { receipt with TotalItems := req.TotalItems }
        let receipt := { receipt with TotalSpending := req.TotalSpending }
        let receipt := { receipt with TotalDiscount := req.TotalDiscount }
        match receiptRepository.Update receipt w with
        | (some err, _, w) => (.error (.wrapf "failed to update receipt: " err), w)
        | (none, receipt, w) =>
          match itemRepository.FindByReceiptID receipt.ID w with
          | (.error err, w) => (.error (.wrapf "failed to get items: " err), w)
          | (.ok items, w) => (.ok { Receipt := receipt, Items := items }, w)

/-- Method `receiptService.DeleteReceipt`; its single result is the error. -/
def receiptService.DeleteReceipt (id userID : Int) (w : World) : Outcome Unit × World :=
  match receiptRepository.FindByID id w with
  | (.error err, w) => (.error err, w)
  | (.ok receipt, w) =>
    if receipt.UserID ≠ userID then (.error errUnauthorized, w)
    else
      match receiptRepository.Delete id w with
      | (some err, w) => (.error err, w)
      | (none, w) => (.ok (), w)

/-- Method `receiptService.GetReceiptsByUserID`. -/
def receiptService.GetReceiptsByUserID (userID page limit : Int) (w : World) :
    Except GoError (List Receipt × Int) × World :=
  receiptRepository.FindByUserID userID page limit w

/-- Method `receiptService.GetStatsByUserID`. -/
def receiptService.GetStatsByUserID (fa : FloatArith) (userID : Int) (w : World) :
    Except GoError (List (String × StatValue)) × World :=
  receiptRepository.GetStatsByUserID fa userID w

/-! ## internal/service/auth_service.go -/

/-- The functions of `golang.org/x/crypto/bcrypt` and of `utils` (the token
helper, which is not part of the sources at hand) that the auth service calls,
taken as parameters: `bcrypt.GenerateFromPassword(password, cost)` with the
salt it draws, `bcrypt.CompareHashAndPassword(hash, password)`, and
`utils.GenerateJWT(userID, email, secret, expireHours)`. -/
structure Externals where
  GenerateFromPassword : String → Int → Except GoError String
  CompareHashAndPassword : String → String → Option GoError
  GenerateJWT : Int → String → String → Int → Except GoError String

/-- The constant `bcrypt.DefaultCost`. -/
def DefaultCost : Int := 10

/-- The struct `authService`; its `userRepo` field is the world. -/
structure authService where
  jwtSecret : String
  jwtExpireHours : Int
  deriving DecidableEq, Repr

/-- The user literal built by `Register` from the request and the hash. -/
def newUser (req : CreateUserRequest) (hashedPassword : String) : User :=
  { User.zero with
    Email := req.Email
    PasswordHash := hashedPassword
    FullName := req.FullName }

/-- Method `authService.Register`. -/
def authService.Register (x : Externals) (_s : authService) (req : CreateUserRequest)
    (w : World) : Outcome User × World :=
  -- `existingUser, _ := s.userRepo.FindByEmail(req.Email)`
  match userRepository.FindByEmail req.Email w with
  | (.ok _, w) => (.error (.errorf "email already registered"), w)
  | (.error _, w) =>
    match x.GenerateFromPassword req.Password DefaultCost with
    | .error err => (.error (.wrapf "failed to hash password: " err), w)
    | .ok hashedPassword =>
      let user := newUser req hashedPassword
      match userRepository.Create user w with
      | (some err, _, w) => (.error (.wrapf "failed to create user: " err), w)
      | (none, user, w) => (.ok user, w)

/-- Method `authService.Login`: the token, the user (nil as `none`) and the
error (nil as `none`). -/
def authService.Login (x : Externals) (s : authService) (req : LoginRequest) (w : World) :
    (String × Option User × Option GoError) × World :=
  match userRepository.FindByEmail req.Email w with
  | (.error _, w) => (("", none, some (.errorf "invalid email or password")), w)
  | (.ok user, w) =>
    match x.CompareHashAndPassword user.PasswordHash req.Password with
    | some _ => (("", none, some (.errorf "invalid email or password")), w)
    | none =>
      match x.GenerateJWT user.ID user.Email s.jwtSecret s.jwtExpireHours with
      | .error err => (("", none, some (.wrapf "failed to generate token: " err)), w)
      | .ok token => ((token, some user, none), w)

/-- Method `authService.GetUserByID`. -/
def authService.GetUserByID (_s : authService) (id : Int) (w : World) : Outcome User × World :=
  match userRepository.FindByID id w with
  | (.error err, w) => (.error (.wrapf "user not found: " err), w)
  | (.ok user, w) => (.ok user, w)

/-! ## internal/utils/response.go and internal/middleware/auth.go -/

/-- The struct `utils.Response`, with a string in place of the payload. -/
structure Response where
  Success : Bool
  Message : String
  Data : String
  Error : String
  deriving DecidableEq, Repr

/-- A value stored in the request context by `c.Set`. -/
inductive ContextValue where
  | int (n : Int)
  | string (s : String)
  deriving DecidableEq, Repr

/-- The `echo.Context` of a request, as far as the middleware touches it: the
`Authorization` header (empty when the header is missing), the values set with
`c.Set`, and the response written with `c.JSON`, if any. -/
structure Context where
  authorization : String
  values : List (String × ContextValue)
  response : Option (Int × Response)
  deriving DecidableEq, Repr

/-- The call `c.Set(key, value)`: the key now holds the value. -/
def Context.Set (c : Context) (key : String) (value : ContextValue) : Context :=
  { c with values := (key, value) :: c.values.filter (fun kv => !(kv.1 == key)) }

/-- The call `c.Get(key)`. -/
def Context.Get (c : Context) (key : String) : Option ContextValue :=
  (c.values.find? (fun kv => kv.1 == key)).map (fun kv => kv.2)

/-- The call `c.JSON(statusCode, body)`: writes the response, returns nil. -/
def Context.JSON (c : Context) (statusCode : Int) (body : Response) : Option GoError × Context :=
  (none, { c with response := some (statusCode, body) })

/-- Function `utils.ErrorResponse`. -/
def ErrorResponse (c : Context) (statusCode : Int) (message : String) :
    Option GoError × Context :=
  c.JSON statusCode { Success := false, Message := "", Data := "", Error := message }

/-- The fields of `utils.Claims` that the middleware reads (the type is declared
with the token helper, which is not part of the sources at hand). -/
structure Claims where
  UserID : Int
  Email : String
  deriving DecidableEq, Repr

/-- The pieces of a list of characters between the occurrences of `sep`: one
more piece than there are occurrences. -/
def splitChars (sep : Char) : List Char → List (List Char)
  | [] => [[]]
  | ch :: rest =>
    if ch = sep then [] :: splitChars sep rest
    else
      match splitChars sep rest with
      | [] => [[ch]]
      | piece :: pieces => (ch :: piece) :: pieces

/-- The call `strings.Split(s, sep)` for a separator of one character. -/
def stringsSplit (s : String) (sep : Char) : List String :=
  (splitChars sep s.data).map String.mk

/-- An `echo.HandlerFunc`. -/
abbrev HandlerFunc := Context → Option GoError × Context

/-- Function `JWTMiddleware`, applied to the secret and to the next handler;
`utils.ValidateJWT` (not part of the sources at hand) is taken as the parameter
`ValidateJWT`. -/
def JWTMiddleware (ValidateJWT : String → String → Except GoError Claims) (jwtSecret : String)
    (next : HandlerFunc) : HandlerFunc := fun c =>
  let authHeader := c.authorization
  if authHeader = "" then
    ErrorResponse c 401 "Missing authorization header"
  else
    let parts := stringsSplit authHeader ' '
    if parts.length ≠ 2 ∨ parts[0]? ≠ some "Bearer" then
      ErrorResponse c 401 "Invalid authorization header format"
    else
      let tokenString := parts[1]?.getD ""
      match ValidateJWT tokenString jwtSecret with
      | .error _ => ErrorResponse c 401 "Invalid or expired token"
      | .ok claims =>
        let c := c.Set "user_id" (.int claims.UserID)
        let c := c.Set "user_email" (.string claims.Email)
        next c

/-- Function `GetUserID`: the type assertion panics when the key does not hold
an `int`. -/
def GetUserID (c : Context) : Outcome Int :=
  match c.Get "user_id" with
  | some (.int n) => .ok n
  | _ => .panic "interface conversion: interface {} is not int"

/-! ## Notions used in the statements -/

/-- The receipt `R` with its store name, address, phone, total items, total
spending and total discount taken from the request (whose phone is `phone`),
its two update timestamps set to `now`, and every other field as in `R`. -/
def Receipt.rewritten (R : Receipt) (req : CreateReceiptRequest) (phone : Int) (now : Int) :
    Receipt :=
  { R with
    StoreName := ⟨req.StoreName, req.StoreName != ""⟩
    Address := ⟨req.Address, req.Address != ""⟩
    Phone := ⟨phone, true⟩
    TotalItems := req.TotalItems
    TotalSpending := req.TotalSpending
    TotalDiscount := req.TotalDiscount
    UpdatedAt := now
    UpdatedAtUnix := now }

/-- In the words of the specification: the receipts of a user whose status is
"completed". -/
def completedReceiptsOf (s : Store) (userID : Int) : List Receipt :=
  s.receipts.filter (fun r => decide (r.UserID = userID ∧ r.Status = StatusCompleted))


/-- The columns of an item that the caller of an insert supplies: receipt
reference, name, unit price, quantity, price and total. -/
def Item.columns (it : Item) : Int × String × Int × Int × Int × Int :=
  (it.ReceiptID, it.Name, it.UnitPrice, it.Quantity, it.Price, it.Total)

/-- The five value fields of a request item. -/
def CreateItemRequest.values (r : CreateItemRequest) : String × Int × Int × Int × Int :=
  (r.Name, r.UnitPrice, r.Quantity, r.Price, r.Total)

/-- The five value fields of an item, in the order of `CreateItemRequest.values`. -/
def Item.values (it : Item) : String × Int × Int × Int × Int :=
  (it.Name, it.UnitPrice, it.Quantity, it.Price, it.Total)

/-- The driver fails the `k`-th statement sent from now on (counting from 0). -/
def World.failsAt (w : World) (k : Nat) : Bool :=
  match w.faults[k]? with
  | some (some _) => true
  | _ => false

/-- In the words of the specification: the elements of `l` at positions
`(page-1)*limit`, ..., `(page-1)*limit + limit - 1` (as far as they exist), in
that order, with the offset taken in the integers. -/
def pageAt (l : List Receipt) (page limit : Int) : List Receipt :=
  (List.range limit.toNat).filterMap (fun i => l[((page - 1) * limit).toNat + i]?)

/-! ## Worlds and requests used in the examples -/

/-- A receipt of user 1 with id 1. -/
def exReceipt : Receipt :=
  { Receipt.zero with ID := 1, UUID := 100, UserID := 1, Status := StatusCompleted,
                      UploadDate := 50, TotalItems := 2, TotalSpending := 30 }

/-- A store with one receipt (of user 1) and its two items. -/
def exStore : Store :=
  { receipts := [exReceipt],
    items := [{ Item.zero with ID := 1, UUID := 101, ReceiptID := 1, Name := "tea", Total := 10 },
              { Item.zero with ID := 2, UUID := 102, ReceiptID := 1, Name := "rice", Total := 20 }],
    receiptSeq := 2, itemSeq := 3, uuidSeq := 103, itemsCascade := false }

/-- A world over `exStore` in which no statement faults. -/
def exWorld : World := { store := exStore, clock := 1000, faults := [], log := [] }

/-- A creation request with two items. -/
def exRequest : CreateReceiptRequest :=
  { StoreName := "Shop", Address := "", Phone := some 62811, Date := some "2024-01-01",
    TotalItems := 2, TotalSpending := 15, TotalDiscount := 1,
    Items := [⟨"milk", 5, 1, 5, 5⟩, ⟨"bread", 5, 2, 10, 10⟩] }

/-- A world over `exStore` in which the fourth statement sent fails. -/
def exFaultyWorld : World :=
  { store := exStore, clock := 1000, faults := [none, none, none, some "pq: connection reset"],
    log := [] }

/-- Two items for receipt 1, as a caller hands them to `CreateBatch`. -/
def exBatch : List Item :=
  [{ Item.zero with ReceiptID := 1, Name := "salt", Total := 3 },
   { Item.zero with ReceiptID := 1, Name := "oil", Total := 9 }]

/-- The receipt row that creating `exRequest` for user 1 in `exWorld` writes. -/
def exNewReceipt : Receipt :=
  { ID := 2, UUID := 103, UserID := 1,
    StoreName := ⟨"Shop", true⟩, Address := ⟨"", false⟩, Phone := ⟨62811, true⟩,
    Date := ⟨0, false⟩, ImageURL := "img", OriginalFilename := "f.png", FileSize := 10,
    UploadDate := 1000, Status := "completed", TotalItems := 2, TotalSpending := 15,
    TotalDiscount := 1, CreatedAt := 1000, UpdatedAt := 1000,
    CreatedAtUnix := 1000, UpdatedAtUnix := 1000 }

/-- The view that creating `exRequest` for user 1 in `exWorld` returns. -/
def exCreated : ReceiptWithItems :=
  { Receipt := exNewReceipt,
    Items := [{ ID := 3, UUID := 104, ReceiptID := 2, Name := "milk", UnitPrice := 5,
                Quantity := 1, Price := 5, Total := 5, CreatedAt := 1000, CreatedAtUnix := 1000 },
              { ID := 4, UUID := 105, ReceiptID := 2, Name := "bread", UnitPrice := 5,
                Quantity := 2, Price := 10, Total := 10, CreatedAt := 1000,
                CreatedAtUnix := 1000 }] }

/-- The request `exRequest` without items. -/
def exRequestNoItems : CreateReceiptRequest := { exRequest with Items := [] }

/-- The request `exRequest` with a nil `Phone`. -/
def exRequestNoPhone : CreateReceiptRequest := { exRequest with Phone := none }

/-- A page number whose offset `(page - 1) * 4` is `2 ^ 64`. -/
def exHugePage : Int := 4611686018427387905

/-- A store with four receipts of user 1 (completed, failed, pending and
soft-deleted), one completed receipt of user 2 and one failed receipt of
user 4; no items. -/
def exMixedStore : Store :=
  { receipts :=
      [{ Receipt.zero with ID := 1, UUID := 11, UserID := 1, Status := StatusCompleted,
                           UploadDate := 10, TotalSpending := 30, TotalDiscount := 4 },
       { Receipt.zero with ID := 2, UUID := 12, UserID := 1, Status := StatusFailed,
                           UploadDate := 20, TotalSpending := 7, TotalDiscount := 1 },
       { Receipt.zero with ID := 3, UUID := 13, UserID := 1, Status := StatusPending,
                           UploadDate := 30, TotalSpending := 9, TotalDiscount := 2 },
       { Receipt.zero with ID := 4, UUID := 14, UserID := 1, Status := "deleted",
                           UploadDate := 40, TotalSpending := 11, TotalDiscount := 3 },
       { Receipt.zero with ID := 5, UUID := 15, UserID := 2, Status := StatusCompleted,
                           UploadDate := 50, TotalSpending := 100, TotalDiscount := 10 },
       { Receipt.zero with ID := 6, UUID := 16, UserID := 4, Status := StatusFailed,
                           UploadDate := 60, TotalSpending := 8, TotalDiscount := 1 }],
    items := [], receiptSeq := 7, itemSeq := 1, uuidSeq := 17, itemsCascade := false }

/-- A world over `exMixedStore` in which no statement faults. -/
def exMixedWorld : World := { store := exMixedStore, clock := 1000, faults := [], log := [] }

/-- A stand-in for the external functions, used in the examples: hashing
refuses passwords of more than 72 bytes (as `bcrypt` does) and otherwise tags
the password, comparison accepts exactly the tagged password, and the token
lists what it was issued for. -/
def exExternals : Externals :=
  { GenerateFromPassword := fun password _ =>
      if password.utf8ByteSize > 72 then
        .error (.errorf "bcrypt: password length exceeds 72 bytes")
      else .ok ("$2a$10$" ++ password)
    CompareHashAndPassword := fun hash password =>
      if hash = "$2a$10$" ++ password then none
      else some (.errorf "crypto/bcrypt: hashedPassword is not the hash of the given password")
    GenerateJWT := fun userID email secret _ =>
      .ok ("token/" ++ toString userID ++ "/" ++ email ++ "/" ++ secret) }

/-- The auth service of the examples. -/
def exAuth : authService := { jwtSecret := "secret", jwtExpireHours := 24 }

/-- The user Alice, as stored. -/
def exAlice : User :=
  { ID := 1, UUID := 201, Email := "a@x.com", PasswordHash := "$2a$10$password1",
    FullName := "Alice", CreatedAt := 900, UpdatedAt := 900,
    CreatedAtUnix := 900, UpdatedAtUnix := 900 }

/-- A world whose store holds the user Alice and nothing else. -/
def exUserWorld : World :=
  { store := { receipts := [], items := [], receiptSeq := 1, itemSeq := 1, uuidSeq := 202,
               itemsCascade := false, users := [exAlice], userSeq := 2 },
    clock := 1000, faults := [], log := [] }

/-- A world over an empty store. -/
def exEmptyWorld : World :=
  { store := { receipts := [], items := [], receiptSeq := 1, itemSeq := 1, uuidSeq := 1,
               itemsCascade := false },
    clock := 1000, faults := [], log := [] }

/-- The registration request of Alice. -/
def exRegister : CreateUserRequest :=
  { Email := "a@x.com", Password := "password1", FullName := "Alice" }

/-- The world `exUserWorld` with a driver that fails the next statement. -/
def exUserFaultyWorld : World :=
  { exUserWorld with faults := [some "pq: connection reset"] }

/-- A registration request of a new email whose password has 86 bytes. -/
def exLongRegister : CreateUserRequest :=
  { Email := "b@x.com",
    Password := "correct horse battery staple correct horse battery staple correct horse battery staple",
    FullName := "Bob" }

/-- A stand-in for `utils.ValidateJWT`, used in the examples: with the secret
"secret" the token "good" carries user 1, every other token is refused. -/
def exValidateJWT (tokenString jwtSecret : String) : Except GoError Claims :=
  if tokenString = "good" ∧ jwtSecret = "secret" then .ok { UserID := 1, Email := "a@x.com" }
  else .error (.errorf "token is expired")

/-- A request context with the given `Authorization` header and nothing else. -/
def exContext (authorization : String) : Context :=
  { authorization := authorization, values := [], response := none }

/-- A next handler that answers 200 with the user id it finds in the context. -/
def exNext : HandlerFunc := fun c =>
  c.JSON 200 { Success := true, Message := "", Error := "",
               Data := match GetUserID c with
                 | .ok n => toString n
                 | _ => "" }

/-- A stand-in for the `float64` arithmetic, used in the examples, where the
columns aggregated are empty and only `0 - 0` is computed. -/
def exArith : FloatArith :=
  { sum := fun column => column.sum
    avg := fun column => column.sum / (column.length : Float64)
    sub := fun a b => a - b
    sub_zero_zero := by norm_num }

/-- The world `exWorld` with the two rows of the item table in reverse order:
rice (id 2) before tea (id 1). -/
def exReversedWorld : World :=
  { exWorld with store := { exStore with items := exStore.items.reverse } }

/-- The world left by creating `exRequest` for user 1 in `exWorld`, with the
rows of the item table in reverse order. -/
def exCreatedReversedWorld : World :=
  { store :=
      { (receiptService.CreateReceipt 1 exRequest "img" "f.png" 10 exWorld).2.store with
        items :=
          (receiptService.CreateReceipt 1 exRequest "img" "f.png" 10 exWorld).2.store.items.reverse }
    clock := 1000, faults := [], log := [] }

/-! ## Constraints of the schema -/

/-- Modelled from the spec: the constraints the store keeps on its tables
(the migrations declaring them are not part of the sources at hand): `id` is a
key of `receipts` and of `items`, every identifier in a table was handed out
by its sequence, and an item refers to a receipt identifier that was handed
out. -/
def Store.wf (s : Store) : Prop :=
  (s.receipts.map (fun r => r.ID)).Nodup ∧
  (∀ r ∈ s.receipts, r.ID < s.receiptSeq) ∧
  (s.items.map (fun it => it.ID)).Nodup ∧
  (∀ it ∈ s.items, it.ID < s.itemSeq) ∧
  (∀ it ∈ s.items, it.ReceiptID < s.receiptSeq)

instance (s : Store) : Decidable s.wf := by
  unfold Store.wf; infer_instance

/-! ## Lemmas on the repositories -/

theorem find_receipt_of_key {l : List Receipt} (hkey : (l.map (fun r => r.ID)).Nodup)
    {R : Receipt} (hR : R ∈ l) : l.find? (fun r => r.ID == R.ID) = some R := by
  induction l with
  | nil => cases hR
  | cons a t ih =>
    rw [List.map_cons, List.nodup_cons] at hkey
    rcases List.mem_cons.mp hR with h | h
    · subst h; simp
    · have hne : a.ID ≠ R.ID := by
        intro heq
        exact hkey.1 (heq ▸ List.mem_map_of_mem (fun r => r.ID) h)
      rw [List.find?_cons_of_neg _ (by simpa using hne)]
      exact ih hkey.2 h

theorem find_receipt_none {l : List Receipt} {id : Int} (h : ∀ r ∈ l, r.ID ≠ id) :
    l.find? (fun r => r.ID == id) = none := by
  rw [List.find?_eq_none]
  intro r hr
  simpa using h r hr

theorem send_store (w : World) : w.send.2.store = w.store := by
  unfold World.send; split <;> rfl

theorem send_log (w : World) : w.send.2.log = w.log := by
  unfold World.send; split <;> rfl

theorem send_clock (w : World) : w.send.2.clock = w.clock := by
  unfold World.send; split <;> rfl

theorem send_of_answers {w : World} {n : Nat} (h : w.answers (n + 1) = true) :
    w.send.1 = none ∧ w.send.2.answers n = true := by
  unfold World.answers at h
  unfold World.send World.answers
  cases hf : w.faults with
  | nil => simp [hf]
  | cons f rest =>
    rw [hf] at h
    simp only [List.take_succ_cons, List.all_cons, Bool.and_eq_true] at h
    refine ⟨?_, h.2⟩
    simpa using h.1

theorem callsSince_append (w w1 : World) (cs : List Call) (h : w1.log = w.log ++ cs) :
    w.callsSince w1 = cs := by
  unfold World.callsSince; rw [h]; simp

/-- `FindByID` reads: it leaves the store alone and logs itself. -/
theorem FindByID_frame (id : Int) (w : World) :
    (receiptRepository.FindByID id w).2.store = w.store ∧
    (receiptRepository.FindByID id w).2.log = w.log ++ [.receiptFindByID id] ∧
    (receiptRepository.FindByID id w).2.clock = w.clock := by
  unfold receiptRepository.FindByID queryReceiptByID World.record World.send
  cases hf : w.faults with
  | nil =>
    simp only
    cases w.store.receipts.find? (fun r => r.ID == id) <;> simp
  | cons f rest =>
    cases f with
    | some msg => simp
    | none =>
      simp only
      cases w.store.receipts.find? (fun r => r.ID == id) <;> simp

/-- What `FindByID` returns, by the fate of its statement. -/
theorem FindByID_result (id : Int) (w : World) :
    (receiptRepository.FindByID id w).1 =
      match w.send.1 with
      | some msg => .error (.wrapf "failed to find receipt: " (.driver msg))
      | none =>
        match w.store.receipts.find? (fun r => r.ID == id) with
        | some r => .ok r
        | none => .error (.errorf "receipt not found") := by
  unfold receiptRepository.FindByID queryReceiptByID World.record World.send
  cases hf : w.faults with
  | nil =>
    simp only
    cases w.store.receipts.find? (fun r => r.ID == id) <;> simp
  | cons f rest =>
    cases f with
    | some msg => simp
    | none =>
      simp only
      cases w.store.receipts.find? (fun r => r.ID == id) <;> simp

/-- Under the schema constraints, `FindByID` of a stored receipt's id returns
that receipt, unless the driver fails the statement. -/
theorem FindByID_of_member {w : World} {R : Receipt} (hwf : w.store.wf) (hR : R ∈ w.store.receipts) :
    (receiptRepository.FindByID R.ID w).1 =
      match w.send.1 with
      | some msg => .error (.wrapf "failed to find receipt: " (.driver msg))
      | none => .ok R := by
  rw [FindByID_result, find_receipt_of_key hwf.1 hR]

/-! ## C1: a non-owner cannot read a receipt -/

/-- C1. In every world whose store keeps the schema constraints, for a stored
receipt `R` of user `A` and any other user `B`, `GetReceiptByID R.ID B`
returns an error and no value; that error is the unauthorized error whenever
the store answers the lookup (otherwise it is the wrapped driver error of the
lookup); the only repository call made is `FindByID` (the item repository is
not queried), and the store is unchanged. -/
theorem GetReceiptByID_not_owner (w : World) (R : Receipt) (A B : Int)
    (hwf : w.store.wf) (hR : R ∈ w.store.receipts) (hA : R.UserID = A) (hB : B ≠ A) :
    (∃ err, (receiptService.GetReceiptByID R.ID B w).1 = .error err) ∧
    (w.answers 1 = true →
      (receiptService.GetReceiptByID R.ID B w).1 = .error errUnauthorized) ∧
    w.callsSince (receiptService.GetReceiptByID R.ID B w).2 = [.receiptFindByID R.ID] ∧
    (receiptService.GetReceiptByID R.ID B w).2.store = w.store := by
  have hres := FindByID_of_member hwf hR
  have hfr := FindByID_frame R.ID w
  have hne : R.UserID ≠ B := by rw [hA]; exact fun h => hB h.symm
  unfold receiptService.GetReceiptByID
  generalize receiptRepository.FindByID R.ID w = p at hres hfr
  obtain ⟨res, w1⟩ := p
  simp only at hres hfr
  subst hres
  refine ⟨?_, ?_, ?_, ?_⟩
  · cases w.send.1 <;> simp [hne]
  · intro hans
    rw [(send_of_answers hans).1]
    simp [hne]
  · cases w.send.1 <;> simp [hne, callsSince_append w w1 _ hfr.2.1]
  · cases w.send.1 <;> simp [hne, hfr.1]

/-- C1 at work: user 2 asks for receipt 1 of user 1. -/
theorem GetReceiptByID_not_owner_witness :
    (∃ err, (receiptService.GetReceiptByID exReceipt.ID 2 exWorld).1 = .error err) ∧
    (exWorld.answers 1 = true →
      (receiptService.GetReceiptByID exReceipt.ID 2 exWorld).1 = .error errUnauthorized) ∧
    exWorld.callsSince (receiptService.GetReceiptByID exReceipt.ID 2 exWorld).2
      = [.receiptFindByID exReceipt.ID] ∧
    (receiptService.GetReceiptByID exReceipt.ID 2 exWorld).2.store = exWorld.store :=
  GetReceiptByID_not_owner exWorld exReceipt 1 2 (by decide) (by decide) (by decide) (by decide)

/-! ## C2: a non-owner cannot update or delete a receipt -/

/-- C2. In every world whose store keeps the schema constraints, for a stored
receipt `R` of user `A`, any other user `B` and any request, `UpdateReceipt
R.ID B req` and `DeleteReceipt R.ID B` both return an error and no value,
which is the unauthorized error whenever the store answers the lookup; the
only repository call either makes is `FindByID` (neither `Update` nor `Delete`
is invoked), and the store after the call equals the store before it. -/
theorem UpdateReceipt_DeleteReceipt_not_owner (w : World) (R : Receipt) (A B : Int)
    (req : CreateReceiptRequest)
    (hwf : w.store.wf) (hR : R ∈ w.store.receipts) (hA : R.UserID = A) (hB : B ≠ A) :
    ((∃ err, (receiptService.UpdateReceipt R.ID B req w).1 = .error err) ∧
     (w.answers 1 = true →
       (receiptService.UpdateReceipt R.ID B req w).1 = .error errUnauthorized) ∧
     w.callsSince (receiptService.UpdateReceipt R.ID B req w).2 = [.receiptFindByID R.ID] ∧
     (receiptService.UpdateReceipt R.ID B req w).2.store = w.store) ∧
    ((∃ err, (receiptService.DeleteReceipt R.ID B w).1 = .error err) ∧
     (w.answers 1 = true →
       (receiptService.DeleteReceipt R.ID B w).1 = .error errUnauthorized) ∧
     w.callsSince (receiptService.DeleteReceipt R.ID B w).2 = [.receiptFindByID R.ID] ∧
     (receiptService.DeleteReceipt R.ID B w).2.store = w.store) := by
  have hres := FindByID_of_member hwf hR
  have hfr := FindByID_frame R.ID w
  have hne : R.UserID ≠ B := by rw [hA]; exact fun h => hB h.symm
  unfold receiptService.UpdateReceipt receiptService.DeleteReceipt
  generalize receiptRepository.FindByID R.ID w = p at hres hfr
  obtain ⟨res, w1⟩ := p
  simp only at hres hfr
  subst hres
  refine ⟨⟨?_, ?_, ?_, ?_⟩, ⟨?_, ?_, ?_, ?_⟩⟩
  · cases w.send.1 <;> simp [hne]
  · intro hans
    rw [(send_of_answers hans).1]
    simp [hne]
  · cases w.send.1 <;> simp [hne, callsSince_append w w1 _ hfr.2.1]
  · cases w.send.1 <;> simp [hne, hfr.1]
  · cases w.send.1 <;> simp [hne]
  · intro hans
    rw [(send_of_answers hans).1]
    simp [hne]
  · cases w.send.1 <;> simp [hne, callsSince_append w w1 _ hfr.2.1]
  · cases w.send.1 <;> simp [hne, hfr.1]

/-- C2 at work: user 2 tries to update and to delete receipt 1 of user 1. -/
theorem UpdateReceipt_DeleteReceipt_not_owner_witness :
    (receiptService.UpdateReceipt 1 2 exRequest exWorld).1 = .error errUnauthorized ∧
    (receiptService.UpdateReceipt 1 2 exRequest exWorld).2.store = exStore ∧
    (receiptService.DeleteReceipt 1 2 exWorld).1 = .error errUnauthorized ∧
    (receiptService.DeleteReceipt 1 2 exWorld).2.store = exStore :=
  have h := UpdateReceipt_DeleteReceipt_not_owner exWorld exReceipt 1 2 exRequest
    (by decide) (by decide) (by decide) (by decide)
  ⟨h.1.2.1 (by decide), h.1.2.2.2, h.2.2.1 (by decide), h.2.2.2.2⟩

/-! ## C3: existence is checked before ownership -/

/-- C3. For an id that matches no stored receipt and for every user id (and
request), `GetReceiptByID`, `UpdateReceipt` and `DeleteReceipt` each return
exactly the error `FindByID` returns for that id, unwrapped; that error is
never the unauthorized error and is "receipt not found" whenever the store
answers the lookup; each call makes `FindByID` its only repository call and
leaves the store unchanged. -/
theorem missing_receipt_error_of_FindByID (w : World) (id userID : Int)
    (req : CreateReceiptRequest) (hmiss : ∀ r ∈ w.store.receipts, r.ID ≠ id) :
    ∃ err, (receiptRepository.FindByID id w).1 = .error err ∧
      err ≠ errUnauthorized ∧
      (w.answers 1 = true → err = .errorf "receipt not found") ∧
      (receiptService.GetReceiptByID id userID w).1 = .error err ∧
      (receiptService.UpdateReceipt id userID req w).1 = .error err ∧
      (receiptService.DeleteReceipt id userID w).1 = .error err ∧
      (receiptService.GetReceiptByID id userID w).2.store = w.store ∧
      (receiptService.UpdateReceipt id userID req w).2.store = w.store ∧
      (receiptService.DeleteReceipt id userID w).2.store = w.store ∧
      w.callsSince (receiptService.GetReceiptByID id userID w).2 = [.receiptFindByID id] ∧
      w.callsSince (receiptService.UpdateReceipt id userID req w).2 = [.receiptFindByID id] ∧
      w.callsSince (receiptService.DeleteReceipt id userID w).2 = [.receiptFindByID id] := by
  have hres := FindByID_result id w
  rw [find_receipt_none hmiss] at hres
  have hfr := FindByID_frame id w
  unfold receiptService.GetReceiptByID receiptService.UpdateReceipt receiptService.DeleteReceipt
  generalize receiptRepository.FindByID id w = p at hres hfr
  obtain ⟨res, w1⟩ := p
  simp only at hres hfr
  subst hres
  have hcalls := callsSince_append w w1 _ hfr.2.1
  cases hsend : w.send.1 with
  | none =>
    refine ⟨.errorf "receipt not found", rfl, by decide, fun _ => rfl, ?_⟩
    simp [hfr.1, hcalls]
  | some msg =>
    refine ⟨.wrapf "failed to find receipt: " (.driver msg), rfl, by simp [errUnauthorized], ?_, ?_⟩
    · intro hans
      rw [(send_of_answers hans).1] at hsend
      cases hsend
    · simp [hfr.1, hcalls]

/-- C3 at work: nobody owns receipt 7, and user 2 asks for it. -/
theorem missing_receipt_error_of_FindByID_witness :
    ∃ err, (receiptRepository.FindByID 7 exWorld).1 = .error err ∧
      err ≠ errUnauthorized ∧
      (exWorld.answers 1 = true → err = .errorf "receipt not found") ∧
      (receiptService.GetReceiptByID 7 2 exWorld).1 = .error err ∧
      (receiptService.UpdateReceipt 7 2 exRequest exWorld).1 = .error err ∧
      (receiptService.DeleteReceipt 7 2 exWorld).1 = .error err ∧
      (receiptService.GetReceiptByID 7 2 exWorld).2.store = exWorld.store ∧
      (receiptService.UpdateReceipt 7 2 exRequest exWorld).2.store = exWorld.store ∧
      (receiptService.DeleteReceipt 7 2 exWorld).2.store = exWorld.store ∧
      exWorld.callsSince (receiptService.GetReceiptByID 7 2 exWorld).2 = [.receiptFindByID 7] ∧
      exWorld.callsSince (receiptService.UpdateReceipt 7 2 exRequest exWorld).2
        = [.receiptFindByID 7] ∧
      exWorld.callsSince (receiptService.DeleteReceipt 7 2 exWorld).2 = [.receiptFindByID 7] :=
  missing_receipt_error_of_FindByID exWorld 7 2 exRequest (by decide)

/-! ## Lemmas on the batch insert -/

theorem send_eq (w : World) :
    w.send = (w.faults.head?.join, { w with faults := w.faults.tail }) := by
  unfold World.send
  cases hf : w.faults with
  | nil => cases w; simp_all
  | cons f rest => simp

theorem answers_zero (w : World) : w.answers 0 = true := by
  simp [World.answers]

theorem answers_succ (w : World) (n : Nat) :
    w.answers (n + 1) = (w.send.1.isNone && w.send.2.answers n) := by
  rw [send_eq]
  unfold World.answers
  cases hf : w.faults with
  | nil => simp
  | cons f rest => cases f <;> simp

/-- The insert loop touches only the item table, its sequence, the external
identifier sequence and the fault script. -/
theorem insertItems_frame (now : Int) (items : List Item) (w : World) :
    (insertItems now items w).2.2.store.receipts = w.store.receipts ∧
    (insertItems now items w).2.2.store.receiptSeq = w.store.receiptSeq ∧
    (insertItems now items w).2.2.store.itemsCascade = w.store.itemsCascade ∧
    (insertItems now items w).2.2.log = w.log ∧
    (insertItems now items w).2.2.clock = w.clock := by
  induction items generalizing w with
  | nil => simp [insertItems]
  | cons item rest ih =>
    rw [insertItems, send_eq]
    cases w.faults.head?.join with
    | some msg => simp
    | none =>
      simp only
      have h := ih { w with faults := w.faults.tail, store := { w.store with
          items := w.store.items ++ [insertedItem item now { w with faults := w.faults.tail }],
          itemSeq := w.store.itemSeq + 1, uuidSeq := w.store.uuidSeq + 1 } }
      simpa using h

/-- The loop ends without error exactly when the store executes every insert. -/
theorem insertItems_error_iff (now : Int) (items : List Item) (w : World) :
    (insertItems now items w).1 = none ↔ w.answers items.length = true := by
  induction items generalizing w with
  | nil => simp [insertItems, answers_zero]
  | cons item rest ih =>
    rw [List.length_cons, answers_succ, insertItems, send_eq]
    cases w.faults.head?.join with
    | some msg => simp
    | none =>
      simp only
      have h := ih { w with faults := w.faults.tail, store := { w.store with
          items := w.store.items ++ [insertedItem item now { w with faults := w.faults.tail }],
          itemSeq := w.store.itemSeq + 1, uuidSeq := w.store.uuidSeq + 1 } }
      simpa [World.answers] using h

/-- When the store executes every insert, the loop appends one row per item,
in order, with the caller's columns and fresh ascending identifiers, and
returns those rows through the slice. -/
theorem insertItems_ok (now : Int) (items : List Item) (w : World)
    (h : w.answers items.length = true) :
    (insertItems now items w).1 = none ∧
    (insertItems now items w).2.2.store.items = w.store.items ++ (insertItems now items w).2.1 ∧
    (insertItems now items w).2.1.map Item.columns = items.map Item.columns ∧
    (insertItems now items w).2.1.Pairwise (fun a b => a.ID < b.ID) ∧
    (∀ it ∈ (insertItems now items w).2.1,
      w.store.itemSeq ≤ it.ID ∧ it.ID < (insertItems now items w).2.2.store.itemSeq) ∧
    (insertItems now items w).2.2.store.itemSeq = w.store.itemSeq + items.length ∧
    (insertItems now items w).2.2.faults = w.faults.drop items.length := by
  induction items generalizing w with
  | nil => simp [insertItems]
  | cons item rest ih =>
    rw [List.length_cons, answers_succ, Bool.and_eq_true] at h
    obtain ⟨h1, h2⟩ := h
    rw [send_eq] at h1 h2
    simp only at h1 h2
    rw [insertItems, send_eq]
    cases hj : w.faults.head?.join with
    | some msg => rw [hj] at h1; simp at h1
    | none =>
      simp only
      generalize hrow : insertedItem item now { w with faults := w.faults.tail } = row
      have hrowID : row.ID = w.store.itemSeq := by rw [← hrow]; rfl
      have hrowC : row.columns = item.columns := by rw [← hrow]; rfl
      generalize hw2 : ({ w with faults := w.faults.tail, store := { w.store with
          items := w.store.items ++ [row],
          itemSeq := w.store.itemSeq + 1, uuidSeq := w.store.uuidSeq + 1 } } : World) = w2
      have hseq : w2.store.itemSeq = w.store.itemSeq + 1 := by rw [← hw2]
      have hitems : w2.store.items = w.store.items ++ [row] := by rw [← hw2]
      have hfaults : w2.faults = w.faults.tail := by rw [← hw2]
      have ih1 := ih w2 (by rw [← hw2]; simpa [World.answers] using h2)
      rw [hseq, hitems, hfaults] at ih1
      generalize insertItems now rest w2 = r at ih1
      obtain ⟨err, out, w3⟩ := r
      simp only at ih1 ⊢
      obtain ⟨e1, e2, e3, e4, e5, e6, e7⟩ := ih1
      refine ⟨e1, ?_, ?_, ?_, ?_, ?_, ?_⟩
      · rw [e2]; simp
      · simp [e3, hrowC]
      · rw [List.pairwise_cons]
        refine ⟨?_, e4⟩
        intro it hit
        have := (e5 it hit).1
        omega
      · intro it hit
        rcases List.mem_cons.mp hit with hh | hh
        · subst hh
          omega
        · have := e5 it hh
          omega
      · rw [e6, List.length_cons]; push_cast; ring
      · rw [e7, List.length_cons]; simp

theorem all_isNone_take_succ (l : List (Option String)) (n : Nat) :
    ((l.take (n + 1)).all (fun f => f.isNone) = true) ↔
      ((l.take n).all (fun f => f.isNone) = true ∧ (l.drop n).head?.join = none) := by
  induction n generalizing l with
  | zero =>
    cases l with
    | nil => simp
    | cons f rest => cases f <;> simp
  | succ k ih =>
    cases l with
    | nil => simp
    | cons f rest =>
      have := ih rest
      simp only [List.take_succ_cons, List.all_cons, Bool.and_eq_true, List.drop_succ_cons] at this ⊢
      rw [this, and_assoc]

theorem answers_succ_last (w : World) (n : Nat) :
    w.answers (n + 1) = true ↔ (w.answers n = true ∧ (w.faults.drop n).head?.join = none) := by
  unfold World.answers
  exact all_isNone_take_succ w.faults n

/-- What `CreateBatch` does, by the fate of its statements: `Begin`,
`Prepare`, one insert per item, `Commit`. -/
theorem CreateBatch_cases (items : List Item) (w : World) :
    ((itemRepository.CreateBatch items w).1 = none ↔ w.answers (items.length + 3) = true) ∧
    ((itemRepository.CreateBatch items w).1 ≠ none →
      (itemRepository.CreateBatch items w).2.2.store.items = w.store.items) ∧
    ((itemRepository.CreateBatch items w).1 = none →
      (itemRepository.CreateBatch items w).2.2.store.items
        = w.store.items ++ (itemRepository.CreateBatch items w).2.1 ∧
      (itemRepository.CreateBatch items w).2.1.map Item.columns = items.map Item.columns ∧
      (itemRepository.CreateBatch items w).2.1.Pairwise (fun a b => a.ID < b.ID) ∧
      (∀ it ∈ (itemRepository.CreateBatch items w).2.1,
        w.store.itemSeq ≤ it.ID ∧ it.ID < (itemRepository.CreateBatch items w).2.2.store.itemSeq) ∧
      (itemRepository.CreateBatch items w).2.2.faults = w.faults.drop (items.length + 3)) ∧
    (itemRepository.CreateBatch items w).2.2.store.receipts = w.store.receipts ∧
    (itemRepository.CreateBatch items w).2.2.store.receiptSeq = w.store.receiptSeq ∧
    (itemRepository.CreateBatch items w).2.2.store.itemsCascade = w.store.itemsCascade ∧
    (itemRepository.CreateBatch items w).2.2.clock = w.clock ∧
    (itemRepository.CreateBatch items w).2.2.log = w.log ++ [.itemCreateBatch items] := by
  have hA : w.answers (items.length + 3) = true ↔
      (w.faults.head?.join = none ∧ w.faults.tail.head?.join = none ∧
        (w.faults.tail.tail.take items.length).all (fun f => f.isNone) = true ∧
        (w.faults.tail.tail.drop items.length).head?.join = none) := by
    rw [show items.length + 3 = (items.length + 1) + 1 + 1 from rfl]
    unfold World.answers
    rw [← all_isNone_take_succ]
    cases w.faults with
    | nil => simp
    | cons f rest =>
      cases rest with
      | nil => cases f <;> simp
      | cons g rest2 => cases f <;> cases g <;> simp
  rw [hA]
  unfold itemRepository.CreateBatch World.record
  simp only [send_eq]
  cases h0 : w.faults.head?.join with
  | some msg => simp
  | none =>
    simp only
    cases h1 : w.faults.tail.head?.join with
    | some msg => simp [rollbackItems]
    | none =>
      simp only
      generalize hw2 : ({ w with faults := w.faults.tail.tail,
                                 log := w.log ++ [Call.itemCreateBatch items] } : World) = w2
      have hst : w2.store = w.store := by rw [← hw2]
      have hfl : w2.faults = w.faults.tail.tail := by rw [← hw2]
      have hlog : w2.log = w.log ++ [Call.itemCreateBatch items] := by rw [← hw2]
      have hclk : w2.clock = w.clock := by rw [← hw2]
      have hfr := insertItems_frame w2.clock items w2
      have hiff := insertItems_error_iff w2.clock items w2
      have hok := insertItems_ok w2.clock items w2
      unfold World.answers at hiff hok
      rw [hst, hlog, hclk] at hfr
      rw [hfl] at hiff hok
      rw [hst] at hok
      rw [hclk] at hiff hok
      generalize insertItems w.clock items w2 = r at hfr hiff hok ⊢
      obtain ⟨err, out, w3⟩ := r
      simp only at hfr hiff hok ⊢
      cases err with
      | some e =>
        have hno : ¬ ((w.faults.tail.tail.take items.length).all (fun f => f.isNone) = true) := by
          intro hh; have := hiff.mpr hh; cases this
        simp [rollbackItems, hfr, hno]
      | none =>
        have hall := hiff.mp rfl
        obtain ⟨-, k2, k3, k4, k5, k6, k7⟩ := hok hall
        simp only [hall, true_and]
        rw [k7]
        cases h3 : (w.faults.tail.tail.drop items.length).head?.join with
        | some msg => simp [rollbackItems, hfr]
        | none =>
          simp only [hfr, k2, k3, true_and, ne_eq, not_true_eq_false, false_implies,
            true_implies, k4, and_true]
          refine ⟨?_, ?_⟩
          · intro it hit
            exact k5 it hit
          · simp only [← List.drop_one, List.drop_drop]
            congr 1
            omega

theorem not_answers_of_failsAt {w : World} {k n : Nat} (hk : k < n) (hf : w.failsAt k = true) :
    w.answers n = false := by
  cases hans : w.answers n with
  | false => rfl
  | true =>
    exfalso
    unfold World.answers at hans
    rw [List.all_eq_true] at hans
    unfold World.failsAt at hf
    cases hg : w.faults[k]? with
    | none => rw [hg] at hf; simp at hf
    | some f =>
      have hmem : f ∈ w.faults.take n := by
        rw [List.mem_iff_getElem?]
        exact ⟨k, by rw [List.getElem?_take_of_lt hk, hg]⟩
      have := hans f hmem
      cases f with
      | none => rw [hg] at hf; simp at hf
      | some msg => simp at this

/-! ## Lemmas on receipt creation -/

/-- What `receiptRepository.Create` does, by the fate of its statement. -/
theorem receiptCreate_cases (receipt : Receipt) (w : World) :
    ((receiptRepository.Create receipt w).1 = none ↔ w.answers 1 = true) ∧
    ((receiptRepository.Create receipt w).1 ≠ none →
      (receiptRepository.Create receipt w).2.2.store = w.store) ∧
    ((receiptRepository.Create receipt w).1 = none →
      (receiptRepository.Create receipt w).2.1 = insertedReceipt receipt w.clock w ∧
      (receiptRepository.Create receipt w).2.2.store.receipts
        = w.store.receipts ++ [(receiptRepository.Create receipt w).2.1] ∧
      (receiptRepository.Create receipt w).2.2.store.receiptSeq = w.store.receiptSeq + 1) ∧
    (receiptRepository.Create receipt w).2.2.store.items = w.store.items ∧
    (receiptRepository.Create receipt w).2.2.store.itemSeq = w.store.itemSeq ∧
    (receiptRepository.Create receipt w).2.2.store.itemsCascade = w.store.itemsCascade ∧
    (receiptRepository.Create receipt w).2.2.clock = w.clock ∧
    (receiptRepository.Create receipt w).2.2.faults = w.faults.tail ∧
    (receiptRepository.Create receipt w).2.2.log = w.log ++ [.receiptCreate receipt] := by
  have hA : w.answers 1 = true ↔ w.faults.head?.join = none := by
    unfold World.answers
    cases w.faults with
    | nil => simp
    | cons f rest => cases f <;> simp
  rw [hA]
  unfold receiptRepository.Create World.record
  simp only [send_eq]
  cases h0 : w.faults.head?.join with
  | some msg => simp
  | none => simp [insertedReceipt]

/-- The items built from a request all refer to the given receipt. -/
theorem newItems_columns (receiptID : Int) (reqItems : List CreateItemRequest) :
    (newItems receiptID reqItems).map Item.columns
      = reqItems.map (fun r => (receiptID, r.Name, r.UnitPrice, r.Quantity, r.Price, r.Total)) := by
  simp [newItems, Item.columns, Function.comp_def]

/-- What a successful `CreateReceipt` has done. -/
theorem CreateReceipt_ok {userID : Int} {req : CreateReceiptRequest} {imageURL filename : String}
    {fileSize : Int} {w w1 : World} {v : ReceiptWithItems}
    (h : receiptService.CreateReceipt userID req imageURL filename fileSize w = (.ok v, w1)) :
    ∃ phone, req.Phone = some phone ∧
      v.Receipt = insertedReceipt (newReceipt userID req phone imageURL filename fileSize)
        w.clock w ∧
      w1.store.receipts = w.store.receipts ++ [v.Receipt] ∧
      w1.store.receiptSeq = w.store.receiptSeq + 1 ∧
      w1.store.items = w.store.items ++ v.Items ∧
      v.Items.map Item.columns = (newItems v.Receipt.ID req.Items).map Item.columns ∧
      v.Items.Pairwise (fun a b => a.ID < b.ID) ∧
      (∀ it ∈ v.Items, w.store.itemSeq ≤ it.ID ∧ it.ID < w1.store.itemSeq) ∧
      w1.store.itemsCascade = w.store.itemsCascade ∧
      w1.clock = w.clock := by
  unfold receiptService.CreateReceipt at h
  cases hp : req.Phone with
  | none => rw [hp] at h; simp at h
  | some phone =>
    rw [hp] at h
    simp only at h
    refine ⟨phone, rfl, ?_⟩
    obtain ⟨-, -, hok, hitems, hseq, hcas, hclk, -, -⟩ :=
      receiptCreate_cases (newReceipt userID req phone imageURL filename fileSize) w
    generalize receiptRepository.Create (newReceipt userID req phone imageURL filename fileSize) w
      = r at h hok hitems hseq hcas hclk
    obtain ⟨err, row, w2⟩ := r
    simp only at h hok hitems hseq hcas hclk
    cases err with
    | some e => simp at h
    | none =>
      obtain ⟨hrow, hrecs, hrseq⟩ := hok rfl
      simp only at h
      by_cases hlen : (newItems row.ID req.Items).length > 0
      · rw [if_pos hlen] at h
        obtain ⟨-, -, hbok, hbrec, hbseq, hbcas, hbclk, -⟩ :=
          CreateBatch_cases (newItems row.ID req.Items) w2
        generalize itemRepository.CreateBatch (newItems row.ID req.Items) w2
          = b at h hbok hbrec hbseq hbcas hbclk
        obtain ⟨berr, out, w3⟩ := b
        simp only at h hbok hbrec hbseq hbcas hbclk
        cases berr with
        | some e => simp at h
        | none =>
          obtain ⟨k1, k2, k3, k4, -⟩ := hbok rfl
          simp only [Prod.mk.injEq, Outcome.ok.injEq] at h
          obtain ⟨hv, hw⟩ := h
          subst hv hw
          simp only
          rw [hitems] at k1
          rw [hseq] at k4
          exact ⟨hrow, by rw [hbrec, hrecs], by rw [hbseq, hrseq], k1, k2, k3, k4,
            by rw [hbcas, hcas], by rw [hbclk, hclk]⟩
      · rw [if_neg hlen] at h
        simp only [Prod.mk.injEq, Outcome.ok.injEq] at h
        obtain ⟨hv, hw⟩ := h
        subst hv hw
        have hnil : newItems row.ID req.Items = [] := by
          cases hh : newItems row.ID req.Items with
          | nil => rfl
          | cons a t => rw [hh] at hlen; simp at hlen
        simp only [hnil]
        exact ⟨hrow, hrecs, hrseq, by simp [hitems], trivial, List.Pairwise.nil, by simp, hcas, hclk⟩

/-- In a store that keeps the schema constraints, no stored item refers to the
identifier the receipt sequence hands out next. -/
theorem filter_items_of_new_receipt {s : Store} (hwf : s.wf) {id : Int} (hid : id = s.receiptSeq)
    {out : List Item} (hout : ∀ it ∈ out, it.ReceiptID = id) :
    (s.items ++ out).filter (fun it => it.ReceiptID == id) = out := by
  rw [List.filter_append]
  have h1 : s.items.filter (fun it => it.ReceiptID == id) = [] := by
    rw [List.filter_eq_nil_iff]
    intro it hit
    have := hwf.2.2.2.2 it hit
    simp only [beq_iff_eq]
    omega
  have h2 : out.filter (fun it => it.ReceiptID == id) = out := by
    rw [List.filter_eq_self]
    intro it hit
    simpa using hout it hit
  rw [h1, h2, List.nil_append]

/-- Items whose columns are those of `newItems id reqItems` refer to `id` and
carry the request's values in the request's order. -/
theorem of_columns_eq_newItems {out : List Item} {id : Int} {reqItems : List CreateItemRequest}
    (h : out.map Item.columns = (newItems id reqItems).map Item.columns) :
    out.length = reqItems.length ∧
    (∀ it ∈ out, it.ReceiptID = id) ∧
    out.map Item.values = reqItems.map CreateItemRequest.values := by
  rw [newItems_columns] at h
  refine ⟨?_, ?_, ?_⟩
  · simpa using congrArg List.length h
  · intro it hit
    have hmem : it.columns ∈ out.map Item.columns := List.mem_map_of_mem _ hit
    rw [h, List.mem_map] at hmem
    obtain ⟨r, -, hr⟩ := hmem
    have := congrArg Prod.fst hr
    simpa [Item.columns] using this.symm
  · have := congrArg (List.map Prod.snd) h
    simpa [Item.columns, Item.values, CreateItemRequest.values, Function.comp_def] using this

/-! ## C4: a created receipt has one stored item per request item -/

/-- C4. Whenever `CreateReceipt` succeeds in a world whose store keeps the
schema constraints, the receipt it returns is the one row added to the receipt
table, with the identifier the store assigned; the returned items are as many
as `req.Items`, the items stored for that receipt are exactly the returned
ones (so as many as `req.Items`), and each of them refers to the new receipt's
identifier. -/
theorem CreateReceipt_item_count (userID : Int) (req : CreateReceiptRequest)
    (imageURL filename : String) (fileSize : Int) (w : World) (v : ReceiptWithItems)
    (hwf : w.store.wf)
    (h : (receiptService.CreateReceipt userID req imageURL filename fileSize w).1 = .ok v) :
    (receiptService.CreateReceipt userID req imageURL filename fileSize w).2.store.receipts
      = w.store.receipts ++ [v.Receipt] ∧
    v.Receipt.ID = w.store.receiptSeq ∧
    v.Items.length = req.Items.length ∧
    (∀ it ∈ v.Items, it.ReceiptID = v.Receipt.ID) ∧
    (receiptService.CreateReceipt userID req imageURL filename fileSize w).2.store.items.filter
      (fun it => it.ReceiptID == v.Receipt.ID) = v.Items ∧
    ((receiptService.CreateReceipt userID req imageURL filename fileSize w).2.store.items.filter
      (fun it => it.ReceiptID == v.Receipt.ID)).length = req.Items.length := by
  generalize hr : receiptService.CreateReceipt userID req imageURL filename fileSize w = r at h
  obtain ⟨o, w1⟩ := r
  simp only at h
  subst h
  obtain ⟨phone, -, hrow, hrecs, -, hitems, hcols, -, -, -, -⟩ := CreateReceipt_ok hr
  obtain ⟨hlen, href, -⟩ := of_columns_eq_newItems hcols
  have hid : v.Receipt.ID = w.store.receiptSeq := by rw [hrow]; rfl
  have hfilter := filter_items_of_new_receipt hwf hid href
  simp only
  rw [hitems, hfilter]
  exact ⟨hrecs, hid, hlen, href, rfl, hlen⟩

/-- C4 at work: creating `exRequest` (two items) for user 1. -/
theorem CreateReceipt_item_count_witness :
    (receiptService.CreateReceipt 1 exRequest "img" "f.png" 10 exWorld).2.store.receipts
      = exWorld.store.receipts ++ [exCreated.Receipt] ∧
    exCreated.Receipt.ID = exWorld.store.receiptSeq ∧
    exCreated.Items.length = exRequest.Items.length ∧
    (∀ it ∈ exCreated.Items, it.ReceiptID = exCreated.Receipt.ID) ∧
    (receiptService.CreateReceipt 1 exRequest "img" "f.png" 10 exWorld).2.store.items.filter
      (fun it => it.ReceiptID == exCreated.Receipt.ID) = exCreated.Items ∧
    ((receiptService.CreateReceipt 1 exRequest "img" "f.png" 10 exWorld).2.store.items.filter
      (fun it => it.ReceiptID == exCreated.Receipt.ID)).length = exRequest.Items.length :=
  CreateReceipt_item_count 1 exRequest "img" "f.png" 10 exWorld exCreated (by decide) (by decide)

/-! ## C5: create, then read back -/

theorem answers_two_iff (w : World) :
    w.answers 2 = true ↔ (w.faults.head?.join = none ∧ w.faults.tail.head?.join = none) := by
  unfold World.answers
  cases w.faults with
  | nil => simp
  | cons f rest =>
    cases rest with
    | nil => cases f <;> simp
    | cons g rest2 => cases f <;> cases g <;> simp

theorem answers_one_iff (w : World) : w.answers 1 = true ↔ w.faults.head?.join = none := by
  unfold World.answers
  cases w.faults with
  | nil => simp
  | cons f rest => cases f <;> simp

/-- `GetReceiptByID` for the owner, when the store answers both reads. -/
theorem GetReceiptByID_owner {w : World} {id userID : Int} {R : Receipt}
    (hans : w.answers 2 = true)
    (hfind : w.store.receipts.find? (fun r => r.ID == id) = some R)
    (hown : R.UserID = userID) :
    (receiptService.GetReceiptByID id userID w).1
      = .ok { Receipt := R,
              Items := orderByIDAsc (w.store.items.filter (fun it => it.ReceiptID == R.ID)) } := by
  obtain ⟨h0, h1⟩ := (answers_two_iff w).mp hans
  unfold receiptService.GetReceiptByID receiptRepository.FindByID queryReceiptByID
    itemRepository.FindByReceiptID World.record
  simp only [send_eq, h0, hfind]
  simp only [reduceCtorEq, ↓reduceIte, hown, ne_eq, not_true_eq_false, h1]

/-- `GetReceiptByID` for anybody but the owner. -/
theorem GetReceiptByID_mismatch {w : World} {id B : Int} {R : Receipt}
    (hfind : w.store.receipts.find? (fun r => r.ID == id) = some R)
    (hne : R.UserID ≠ B) :
    (∃ err, (receiptService.GetReceiptByID id B w).1 = .error err) ∧
    (w.answers 1 = true → (receiptService.GetReceiptByID id B w).1 = .error errUnauthorized) := by
  rw [answers_one_iff]
  unfold receiptService.GetReceiptByID receiptRepository.FindByID queryReceiptByID World.record
  simp only [send_eq]
  cases h0 : w.faults.head?.join with
  | some msg => simp
  | none => simp [hfind, hne]

/-- A strictly ascending list of items is left as it is by `ORDER BY id ASC`. -/
theorem orderByIDAsc_of_ascending {l : List Item} (h : l.Pairwise (fun a b => a.ID < b.ID)) :
    orderByIDAsc l = l := by
  unfold orderByIDAsc
  apply List.Sorted.insertionSort_eq
  exact List.Pairwise.imp (fun hab => le_of_lt hab) h

/-- `ORDER BY id ASC` yields a rearrangement of the rows that is ascending in
the identifier. -/
theorem orderByIDAsc_spec (rows : List Item) :
    (orderByIDAsc rows).Perm rows ∧
    (orderByIDAsc rows).Pairwise (fun a b => a.ID ≤ b.ID) := by
  unfold orderByIDAsc
  haveI : IsTotal Item (fun a b => a.ID ≤ b.ID) := ⟨fun a b => le_total a.ID b.ID⟩
  haveI : IsTrans Item (fun a b => a.ID ≤ b.ID) := ⟨fun a b c hab hbc => le_trans hab hbc⟩
  exact ⟨List.perm_insertionSort _ rows, List.sorted_insertionSort _ rows⟩

/-- Rows that are, in some order, the items of a strictly ascending list are
read back by `ORDER BY id ASC` as that list. -/
theorem orderByIDAsc_of_perm_ascending {l rows : List Item}
    (hasc : l.Pairwise (fun a b => a.ID < b.ID)) (hperm : rows.Perm l) :
    orderByIDAsc rows = l := by
  obtain ⟨hp, hs⟩ := orderByIDAsc_spec rows
  have hperm2 : (orderByIDAsc rows).Perm l := hp.trans hperm
  have hne : l.Pairwise (fun a b => a.ID ≠ b.ID) := hasc.imp (fun hab => ne_of_lt hab)
  have hne2 : (orderByIDAsc rows).Pairwise (fun a b => a.ID ≠ b.ID) :=
    hperm2.symm.pairwise hne (fun hxy => fun heq => hxy heq.symm)
  have hlt : (orderByIDAsc rows).Pairwise (fun a b => a.ID < b.ID) :=
    (hs.and hne2).imp (fun hab => lt_of_le_of_ne hab.1 hab.2)
  haveI : IsAntisymm Item (fun a b => a.ID < b.ID) :=
    ⟨fun a b hab hba => absurd hab (not_lt_of_gt hba)⟩
  exact List.eq_of_perm_of_sorted hperm2 hlt hasc

/-- What `FindByReceiptID` returns, by the fate of its statement. -/
theorem FindByReceiptID_result (receiptID : Int) (w : World) :
    (itemRepository.FindByReceiptID receiptID w).1 =
      match w.faults.head?.join with
      | some msg => .error (.wrapf "failed to query items: " (.driver msg))
      | none =>
        .ok (orderByIDAsc (w.store.items.filter (fun it => it.ReceiptID == receiptID))) := by
  unfold itemRepository.FindByReceiptID World.record
  simp only [send_eq]
  cases w.faults.head?.join <;> rfl

/-- The items of a view returned by `GetReceiptByID` are the stored items of its
receipt, as `ORDER BY id ASC` arranges them. -/
theorem GetReceiptByID_items {w : World} {id userID : Int} {got : ReceiptWithItems}
    (h : (receiptService.GetReceiptByID id userID w).1 = .ok got) :
    got.Items = orderByIDAsc (w.store.items.filter (fun it => it.ReceiptID == got.Receipt.ID)) := by
  unfold receiptService.GetReceiptByID receiptRepository.FindByID queryReceiptByID
    itemRepository.FindByReceiptID World.record at h
  simp only [send_eq] at h
  cases h0 : w.faults.head?.join with
  | some msg => rw [h0] at h; simp at h
  | none =>
    rw [h0] at h
    simp only at h
    cases hf : w.store.receipts.find? (fun r => r.ID == id) with
    | none => rw [hf] at h; simp at h
    | some R =>
      rw [hf] at h
      simp only at h
      by_cases hne : R.UserID ≠ userID
      · rw [if_pos hne] at h
        simp at h
      · rw [if_neg hne] at h
        cases h1 : w.faults.tail.head?.join with
        | some msg => rw [h1] at h; simp at h
        | none =>
          rw [h1] at h
          simp only at h
          have := Outcome.ok.inj h
          rw [← this]

/-- C5. Round trip. Whenever `CreateReceipt` for user `userID` succeeds with
view `v` in a world whose store keeps the schema constraints, then in the
world it leaves: `GetReceiptByID v.Receipt.ID userID` returns exactly `v` as
soon as the store answers its two reads, and it still returns exactly `v` in
whatever order the store keeps the rows of the item table (in every world with
the same receipts and a rearrangement of the same items); the items of `v` are
as many as `req.Items`, carry the name, unit price, quantity, price and total
of `req.Items` in the same order, and have strictly ascending identifiers; the
same call by any other user fails, with the unauthorized error as soon as the
store answers the lookup. In every world, whatever the order of the rows,
`FindByReceiptID` (when the store answers) returns the stored items of the
receipt ascending in their identifier, the empty list when there are none, and
so are the items of every view `GetReceiptByID` returns. -/
theorem CreateReceipt_GetReceiptByID_roundtrip (userID other : Int) (req : CreateReceiptRequest)
    (imageURL filename : String) (fileSize : Int) (w : World) (v : ReceiptWithItems)
    (hwf : w.store.wf)
    (h : (receiptService.CreateReceipt userID req imageURL filename fileSize w).1 = .ok v)
    (hother : other ≠ userID) :
    ((receiptService.CreateReceipt userID req imageURL filename fileSize w).2.answers 2 = true →
      (receiptService.GetReceiptByID v.Receipt.ID userID
        (receiptService.CreateReceipt userID req imageURL filename fileSize w).2).1 = .ok v) ∧
    v.Items.length = req.Items.length ∧
    v.Items.map Item.values = req.Items.map CreateItemRequest.values ∧
    v.Items.Pairwise (fun a b => a.ID < b.ID) ∧
    (∃ err, (receiptService.GetReceiptByID v.Receipt.ID other
        (receiptService.CreateReceipt userID req imageURL filename fileSize w).2).1
          = .error err) ∧
    ((receiptService.CreateReceipt userID req imageURL filename fileSize w).2.answers 1 = true →
      (receiptService.GetReceiptByID v.Receipt.ID other
        (receiptService.CreateReceipt userID req imageURL filename fileSize w).2).1
          = .error errUnauthorized) ∧
    (∀ w2 : World,
      w2.store.receipts
        = (receiptService.CreateReceipt userID req imageURL filename fileSize w).2.store.receipts →
      w2.store.items.Perm
        (receiptService.CreateReceipt userID req imageURL filename fileSize w).2.store.items →
      w2.answers 2 = true →
      (receiptService.GetReceiptByID v.Receipt.ID userID w2).1 = .ok v) ∧
    (∀ (w2 : World) (receiptID : Int), w2.answers 1 = true →
      ∃ items, (itemRepository.FindByReceiptID receiptID w2).1 = .ok items ∧
        items.Pairwise (fun a b => a.ID ≤ b.ID) ∧
        items.Perm (w2.store.items.filter (fun it => it.ReceiptID == receiptID)) ∧
        ((∀ it ∈ w2.store.items, it.ReceiptID ≠ receiptID) → items = [])) ∧
    (∀ (w2 : World) (id uid : Int) (got : ReceiptWithItems),
      (receiptService.GetReceiptByID id uid w2).1 = .ok got →
      got.Items.Pairwise (fun a b => a.ID ≤ b.ID) ∧
      got.Items.Perm (w2.store.items.filter (fun it => it.ReceiptID == got.Receipt.ID))) := by
  generalize hr : receiptService.CreateReceipt userID req imageURL filename fileSize w = r at h
  obtain ⟨o, w1⟩ := r
  simp only at h
  subst h
  obtain ⟨phone, -, hrow, hrecs, -, hitems, hcols, hasc, -, -, -⟩ := CreateReceipt_ok hr
  obtain ⟨hlen, href, hvals⟩ := of_columns_eq_newItems hcols
  have hid : v.Receipt.ID = w.store.receiptSeq := by rw [hrow]; rfl
  have hown : v.Receipt.UserID = userID := by rw [hrow]; rfl
  have hfind : w1.store.receipts.find? (fun r => r.ID == v.Receipt.ID) = some v.Receipt := by
    rw [hrecs, List.find?_append, find_receipt_none]
    · simp
    · intro r hr'
      have := hwf.2.1 r hr'
      omega
  have hstored : w1.store.items.filter (fun it => it.ReceiptID == v.Receipt.ID) = v.Items := by
    rw [hitems]
    exact filter_items_of_new_receipt hwf hid href
  simp only
  refine ⟨?_, hlen, hvals, hasc, ?_, ?_, ?_, ?_, ?_⟩
  · intro hans
    rw [GetReceiptByID_owner hans hfind hown, hstored, orderByIDAsc_of_ascending hasc]
  · exact (GetReceiptByID_mismatch hfind (by rw [hown]; exact fun hh => hother hh.symm)).1
  · exact (GetReceiptByID_mismatch hfind (by rw [hown]; exact fun hh => hother hh.symm)).2
  · intro w2 hrecs2 hperm hans
    have hfind2 : w2.store.receipts.find? (fun r => r.ID == v.Receipt.ID) = some v.Receipt := by
      rw [hrecs2]
      exact hfind
    have hrows : (w2.store.items.filter (fun it => it.ReceiptID == v.Receipt.ID)).Perm v.Items := by
      rw [← hstored]
      exact hperm.filter _
    rw [GetReceiptByID_owner hans hfind2 hown, orderByIDAsc_of_perm_ascending hasc hrows]
  · intro w2 receiptID hans
    obtain ⟨hp, hs⟩ :=
      orderByIDAsc_spec (w2.store.items.filter (fun it => it.ReceiptID == receiptID))
    refine ⟨_, ?_, hs, hp, ?_⟩
    · rw [FindByReceiptID_result, (answers_one_iff w2).mp hans]
    · intro hnone
      have hnil : w2.store.items.filter (fun it => it.ReceiptID == receiptID) = [] := by
        rw [List.filter_eq_nil_iff]
        intro it hit
        simpa using hnone it hit
      rw [hnil]
      rfl
  · intro w2 id uid got hgot
    rw [GetReceiptByID_items hgot]
    obtain ⟨hp, hs⟩ :=
      orderByIDAsc_spec (w2.store.items.filter (fun it => it.ReceiptID == got.Receipt.ID))
    exact ⟨hs, hp⟩

/-- C5 at work: user 1 creates `exRequest` and reads it back; user 2 is refused;
with the rows of the item table in reverse order the same view is read back;
and the items of receipt 1, stored as rice (id 2) before tea (id 1), are read
as tea, rice. -/
theorem CreateReceipt_GetReceiptByID_roundtrip_witness :
    (receiptService.GetReceiptByID 2 1
      (receiptService.CreateReceipt 1 exRequest "img" "f.png" 10 exWorld).2).1 = .ok exCreated ∧
    exCreated.Items.map Item.values = [("milk", 5, 1, 5, 5), ("bread", 5, 2, 10, 10)] ∧
    (receiptService.GetReceiptByID 2 2
      (receiptService.CreateReceipt 1 exRequest "img" "f.png" 10 exWorld).2).1
        = .error errUnauthorized ∧
    (receiptService.GetReceiptByID 2 1 exCreatedReversedWorld).1 = .ok exCreated ∧
    (exReversedWorld.store.items.map (fun it => it.ID) = [2, 1] ∧
      (itemRepository.FindByReceiptID 1 exReversedWorld).1 = .ok exStore.items ∧
      exStore.items.map (fun it => it.ID) = [1, 2]) :=
  have h := CreateReceipt_GetReceiptByID_roundtrip 1 2 exRequest "img" "f.png" 10 exWorld
    exCreated (by decide) (by decide) (by decide)
  ⟨h.1 (by decide), h.2.2.1, h.2.2.2.2.2.1 (by decide),
   h.2.2.2.2.2.2.1 exCreatedReversedWorld (by decide) (List.reverse_perm _) (by decide),
   by decide, by decide, by decide⟩

/-! ## The schema constraints are kept by receipt creation -/

theorem insertItems_itemSeq_le (now : Int) (items : List Item) (w : World) :
    w.store.itemSeq ≤ (insertItems now items w).2.2.store.itemSeq := by
  induction items generalizing w with
  | nil => simp [insertItems]
  | cons item rest ih =>
    rw [insertItems, send_eq]
    cases w.faults.head?.join with
    | some msg => simp
    | none =>
      simp only
      have h := ih { w with faults := w.faults.tail, store := { w.store with
          items := w.store.items ++ [insertedItem item now { w with faults := w.faults.tail }],
          itemSeq := w.store.itemSeq + 1, uuidSeq := w.store.uuidSeq + 1 } }
      have h2 : w.store.itemSeq ≤ w.store.itemSeq + 1 := by omega
      exact le_trans h2 h

theorem CreateBatch_itemSeq_le (items : List Item) (w : World) :
    w.store.itemSeq ≤ (itemRepository.CreateBatch items w).2.2.store.itemSeq := by
  unfold itemRepository.CreateBatch World.record
  simp only [send_eq]
  cases w.faults.head?.join with
  | some msg => simp
  | none =>
    simp only
    cases w.faults.tail.head?.join with
    | some msg => simp [rollbackItems]
    | none =>
      simp only
      have h := insertItems_itemSeq_le w.clock items
        { w with faults := w.faults.tail.tail, log := w.log ++ [Call.itemCreateBatch items] }
      generalize insertItems w.clock items
        { w with faults := w.faults.tail.tail, log := w.log ++ [Call.itemCreateBatch items] }
        = r at h
      obtain ⟨err, out, w3⟩ := r
      simp only at h ⊢
      cases err with
      | some e => simpa [rollbackItems] using h
      | none =>
        simp only
        cases w3.faults.head?.join <;> simpa [rollbackItems] using h

/-- A batch whose items refer to issued receipt identifiers keeps the schema
constraints, whether it commits or is rolled back. -/
theorem CreateBatch_preserves_wf (items : List Item) (w : World) (hwf : w.store.wf)
    (href : ∀ it ∈ items, it.ReceiptID < w.store.receiptSeq) :
    (itemRepository.CreateBatch items w).2.2.store.wf := by
  obtain ⟨-, hfail, hok, hrec, hrseq, -, -, -⟩ := CreateBatch_cases items w
  have hmono := CreateBatch_itemSeq_le items w
  obtain ⟨w1, w2, w3, w4, w5⟩ := hwf
  generalize itemRepository.CreateBatch items w = b at hfail hok hrec hrseq hmono
  obtain ⟨err, out, w'⟩ := b
  simp only at hfail hok hrec hrseq hmono ⊢
  unfold Store.wf
  rw [hrec, hrseq]
  cases err with
  | some e =>
    rw [hfail (by simp)]
    exact ⟨w1, w2, w3, fun it hit => lt_of_lt_of_le (w4 it hit) hmono, w5⟩
  | none =>
    obtain ⟨k1, k2, k3, k4, -⟩ := hok rfl
    rw [k1]
    refine ⟨w1, w2, ?_, ?_, ?_⟩
    · rw [List.map_append, List.nodup_append]
      refine ⟨w3, ?_, ?_⟩
      · rw [List.Nodup, List.pairwise_map]
        exact k3.imp (fun hab => ne_of_lt hab)
      · intro x hx hy
        rw [List.mem_map] at hx hy
        obtain ⟨a, ha, rfl⟩ := hx
        obtain ⟨b, hb, hab⟩ := hy
        have := w4 a ha
        have := (k4 b hb).1
        omega
    · intro it hit
      rcases List.mem_append.mp hit with hh | hh
      · exact lt_of_lt_of_le (w4 it hh) hmono
      · exact (k4 it hh).2
    · intro it hit
      rcases List.mem_append.mp hit with hh | hh
      · exact w5 it hh
      · have hmem : it.columns ∈ out.map Item.columns := List.mem_map_of_mem _ hh
        rw [k2, List.mem_map] at hmem
        obtain ⟨it0, hit0, hc⟩ := hmem
        have := congrArg Prod.fst hc
        simp only [Item.columns] at this
        rw [← this]
        exact href it0 hit0

/-- Inserting a receipt keeps the schema constraints. -/
theorem receiptCreate_preserves_wf (receipt : Receipt) (w : World) (hwf : w.store.wf) :
    (receiptRepository.Create receipt w).2.2.store.wf := by
  obtain ⟨-, hfail, hok, hitems, hiseq, -⟩ := receiptCreate_cases receipt w
  generalize receiptRepository.Create receipt w = r at hfail hok hitems hiseq
  obtain ⟨err, row, w'⟩ := r
  simp only at hfail hok hitems hiseq ⊢
  cases err with
  | some e => rw [hfail (by simp)]; exact hwf
  | none =>
    obtain ⟨hrow, hrecs, hrseq⟩ := hok rfl
    have hid : row.ID = w.store.receiptSeq := by rw [hrow]; rfl
    obtain ⟨w1, w2, w3, w4, w5⟩ := hwf
    unfold Store.wf
    rw [hrecs, hrseq, hitems, hiseq]
    refine ⟨?_, ?_, w3, w4, ?_⟩
    · rw [List.map_append, List.nodup_append]
      refine ⟨w1, by simp, ?_⟩
      intro x hx hy
      rw [List.mem_map] at hx
      obtain ⟨a, ha, rfl⟩ := hx
      simp only [List.map_cons, List.map_nil, List.mem_singleton] at hy
      have := w2 a ha
      omega
    · intro r hr
      rcases List.mem_append.mp hr with hh | hh
      · have := w2 r hh; omega
      · simp only [List.mem_singleton] at hh
        subst hh; omega
    · intro it hit
      have := w5 it hit
      omega

/-- `CreateReceipt` keeps the schema constraints, whatever its outcome. -/
theorem CreateReceipt_preserves_wf (userID : Int) (req : CreateReceiptRequest)
    (imageURL filename : String) (fileSize : Int) (w : World) (hwf : w.store.wf) :
    (receiptService.CreateReceipt userID req imageURL filename fileSize w).2.store.wf := by
  unfold receiptService.CreateReceipt
  cases hp : req.Phone with
  | none => exact hwf
  | some phone =>
    simp only
    have hwf2 := receiptCreate_preserves_wf
      (newReceipt userID req phone imageURL filename fileSize) w hwf
    obtain ⟨-, -, hok, -⟩ :=
      receiptCreate_cases (newReceipt userID req phone imageURL filename fileSize) w
    generalize receiptRepository.Create (newReceipt userID req phone imageURL filename fileSize) w
      = r at hwf2 hok
    obtain ⟨err, row, w2⟩ := r
    simp only at hwf2 hok ⊢
    cases err with
    | some e => exact hwf2
    | none =>
      obtain ⟨hrow, -, hrseq⟩ := hok rfl
      have hid : row.ID = w.store.receiptSeq := by rw [hrow]; rfl
      simp only
      split
      · have hb := CreateBatch_preserves_wf (newItems row.ID req.Items) w2 hwf2 (by
          intro it hit
          simp only [newItems, List.mem_map] at hit
          obtain ⟨r0, -, rfl⟩ := hit
          simp only
          omega)
        generalize itemRepository.CreateBatch (newItems row.ID req.Items) w2 = b at hb
        obtain ⟨berr, out, w3⟩ := b
        cases berr <;> exact hb
      · exact hwf2

/-! ## C6, C8: what `CreateReceipt` asks of the repositories -/

/-- The repository calls of `CreateReceipt`: none when `req.Phone` is nil;
otherwise `Create` with the receipt literal, followed by `CreateBatch` exactly
when the insert succeeded and the request has items. -/
theorem CreateReceipt_calls (userID : Int) (req : CreateReceiptRequest)
    (imageURL filename : String) (fileSize : Int) (w : World) :
    w.callsSince (receiptService.CreateReceipt userID req imageURL filename fileSize w).2 =
      match req.Phone with
      | none => []
      | some phone =>
        let receipt := newReceipt userID req phone imageURL filename fileSize
        Call.receiptCreate receipt ::
          (if (receiptRepository.Create receipt w).1 = none ∧ req.Items ≠ [] then
            [Call.itemCreateBatch (newItems (receiptRepository.Create receipt w).2.1.ID req.Items)]
          else []) := by
  unfold receiptService.CreateReceipt
  cases hp : req.Phone with
  | none => simp [World.callsSince]
  | some phone =>
    simp only
    obtain ⟨-, -, -, -, -, -, -, -, hlog⟩ :=
      receiptCreate_cases (newReceipt userID req phone imageURL filename fileSize) w
    generalize receiptRepository.Create (newReceipt userID req phone imageURL filename fileSize) w
      = r at hlog
    obtain ⟨err, row, w2⟩ := r
    simp only at hlog
    cases err with
    | some e => simp [callsSince_append w w2 _ hlog]
    | none =>
      simp only [true_and]
      cases hitems : req.Items with
      | nil => simp [newItems, callsSince_append w w2 _ hlog]
      | cons a t =>
        have hlen : (newItems row.ID (a :: t)).length > 0 := by simp [newItems]
        rw [if_pos hlen]
        obtain ⟨-, -, -, -, -, -, -, hblog⟩ := CreateBatch_cases (newItems row.ID (a :: t)) w2
        generalize itemRepository.CreateBatch (newItems row.ID (a :: t)) w2 = b at hblog
        obtain ⟨berr, out, w3⟩ := b
        simp only at hblog
        rw [hlog, List.append_assoc] at hblog
        cases berr <;> simp [callsSince_append w w3 _ hblog]

/-- C6. For every request whose item list is empty, `CreateReceipt` makes no
`CreateBatch` call (its only repository call is the receipt insert, and none
at all when `req.Phone` is nil); and whenever the receipt insert it makes
succeeds, it returns the inserted receipt with an empty item sequence and no
error. -/
theorem CreateReceipt_empty_items (userID : Int) (req : CreateReceiptRequest)
    (imageURL filename : String) (fileSize : Int) (w : World) (hempty : req.Items = []) :
    (∀ items, Call.itemCreateBatch items ∉
      w.callsSince (receiptService.CreateReceipt userID req imageURL filename fileSize w).2) ∧
    (∀ phone, req.Phone = some phone →
      (receiptRepository.Create (newReceipt userID req phone imageURL filename fileSize) w).1
        = none →
      receiptService.CreateReceipt userID req imageURL filename fileSize w =
        (.ok { Receipt := (receiptRepository.Create
                 (newReceipt userID req phone imageURL filename fileSize) w).2.1,
               Items := [] },
         (receiptRepository.Create
           (newReceipt userID req phone imageURL filename fileSize) w).2.2)) := by
  refine ⟨?_, ?_⟩
  · intro items
    rw [CreateReceipt_calls]
    cases req.Phone <;> simp [hempty]
  · intro phone hp hins
    unfold receiptService.CreateReceipt
    rw [hp]
    simp only
    generalize receiptRepository.Create (newReceipt userID req phone imageURL filename fileSize) w
      = r at hins
    obtain ⟨err, row, w2⟩ := r
    simp only at hins
    subst hins
    simp [hempty, newItems]

/-- C6 at work: `exRequest` without its items. -/
theorem CreateReceipt_empty_items_witness :
    (∀ items, Call.itemCreateBatch items ∉
      exWorld.callsSince (receiptService.CreateReceipt 1 exRequestNoItems "img" "f.png" 10
        exWorld).2) ∧
    (receiptService.CreateReceipt 1 exRequestNoItems "img" "f.png" 10 exWorld).1
      = .ok { Receipt := exNewReceipt, Items := [] } :=
  have h := CreateReceipt_empty_items 1 exRequestNoItems "img" "f.png" 10 exWorld (by decide)
  ⟨h.1, by rw [h.2 62811 (by decide) (by decide)]; decide⟩

/-- C8. For every user id, request, image reference, file name and file size,
any receipt `CreateReceipt` hands to `ReceiptRepository.Create` has `UserID =
userID`, `Status = "completed"`, a null `Date` (whatever `req.Date` is), the
given `ImageURL`, `OriginalFilename` and `FileSize`, and the request's
`TotalItems`, `TotalSpending` and `TotalDiscount` unchanged (whatever
`req.Items` is); such a receipt is handed over, as the first repository call,
whenever `req.Phone` is not nil. -/
theorem CreateReceipt_receipt_row (userID : Int) (req : CreateReceiptRequest)
    (imageURL filename : String) (fileSize : Int) (w : World) :
    (∀ r, Call.receiptCreate r ∈
        w.callsSince (receiptService.CreateReceipt userID req imageURL filename fileSize w).2 →
      r.UserID = userID ∧ r.Status = "completed" ∧ r.Date.Valid = false ∧
      r.ImageURL = imageURL ∧ r.OriginalFilename = filename ∧ r.FileSize = fileSize ∧
      r.TotalItems = req.TotalItems ∧ r.TotalSpending = req.TotalSpending ∧
      r.TotalDiscount = req.TotalDiscount) ∧
    (req.Phone ≠ none → ∃ r,
      (w.callsSince (receiptService.CreateReceipt userID req imageURL filename fileSize w).2).head?
        = some (Call.receiptCreate r)) := by
  rw [CreateReceipt_calls]
  cases hp : req.Phone with
  | none => simp
  | some phone =>
    refine ⟨?_, fun _ => ⟨_, rfl⟩⟩
    intro r hr
    have hr' : r = newReceipt userID req phone imageURL filename fileSize := by
      simp only [List.mem_cons] at hr
      rcases hr with h | h
      · exact Call.receiptCreate.inj h
      · split at h <;> simp at h
    subst hr'
    simp [newReceipt, StatusCompleted]

/-- C8 at work: the receipt handed over for `exRequest`, whose `Date` is a
non-empty string. -/
theorem CreateReceipt_receipt_row_witness :
    ∃ r, (exWorld.callsSince
        (receiptService.CreateReceipt 1 exRequest "img" "f.png" 10 exWorld).2).head?
          = some (Call.receiptCreate r) :=
  (CreateReceipt_receipt_row 1 exRequest "img" "f.png" 10 exWorld).2 (by decide)

/-! ## C7: a nil phone -/

/-- C7 (the code at the failing input). With `req.Phone` nil, `CreateReceipt`
panics on the dereference `*req.Phone` while building the receipt literal,
before any repository call, for every user, request and world; and so does
`UpdateReceipt` called by the owner of a stored receipt. -/
theorem nil_phone_panics :
    (∀ (userID : Int) (req : CreateReceiptRequest) (imageURL filename : String) (fileSize : Int)
        (w : World),
      receiptService.CreateReceipt userID { req with Phone := none } imageURL filename fileSize w
        = (.panic nilDeref, w)) ∧
    (receiptService.UpdateReceipt 1 1 exRequestNoPhone exWorld).1 = .panic nilDeref ∧
    (receiptService.UpdateReceipt 1 1 exRequestNoPhone exWorld).2.store = exStore :=
  ⟨fun _ _ _ _ _ _ => rfl, by decide, by decide⟩

/-! ## C9: the batch insert is all-or-nothing -/

/-- C9. `CreateBatch` on a batch of `M` items sends `M + 3` statements:
statement 0 is `Begin`, statement 1 is `Prepare`, statement `N + 1` is the
insert of item `N` (for `1 ≤ N ≤ M`) and statement `M + 2` is `Commit`. In
every world, if the driver fails any of them (in particular the insert of some
item `N`, or the commit), `CreateBatch` returns an error and the item table is
exactly what it was before the call; if the store executes all of them,
`CreateBatch` returns nil and the item table is the old one followed by one row
per item of the batch, in order, carrying the caller's columns. The receipt
table is never touched. -/
theorem CreateBatch_all_or_nothing (items : List Item) (w : World) :
    (∀ k, k < items.length + 3 → w.failsAt k = true →
      (∃ err, (itemRepository.CreateBatch items w).1 = some err) ∧
      (itemRepository.CreateBatch items w).2.2.store.items = w.store.items) ∧
    (w.answers (items.length + 3) = false →
      (∃ err, (itemRepository.CreateBatch items w).1 = some err) ∧
      (itemRepository.CreateBatch items w).2.2.store.items = w.store.items) ∧
    (w.answers (items.length + 3) = true →
      (itemRepository.CreateBatch items w).1 = none ∧
      (itemRepository.CreateBatch items w).2.2.store.items
        = w.store.items ++ (itemRepository.CreateBatch items w).2.1 ∧
      (itemRepository.CreateBatch items w).2.1.length = items.length ∧
      (itemRepository.CreateBatch items w).2.1.map Item.columns = items.map Item.columns) ∧
    (itemRepository.CreateBatch items w).2.2.store.receipts = w.store.receipts := by
  obtain ⟨hiff, hfail, hok, hrec, -⟩ := CreateBatch_cases items w
  have hno : w.answers (items.length + 3) = false →
      (∃ err, (itemRepository.CreateBatch items w).1 = some err) ∧
      (itemRepository.CreateBatch items w).2.2.store.items = w.store.items := by
    intro hans
    have hne : (itemRepository.CreateBatch items w).1 ≠ none := by
      intro h
      rw [hiff.mp h] at hans
      cases hans
    refine ⟨?_, hfail hne⟩
    cases h : (itemRepository.CreateBatch items w).1 with
    | none => exact absurd h hne
    | some err => exact ⟨err, rfl⟩
  refine ⟨fun k hk hf => hno (not_answers_of_failsAt hk hf), hno, ?_, hrec⟩
  intro hans
  have hnone := hiff.mpr hans
  obtain ⟨h1, h2, -⟩ := hok hnone
  refine ⟨hnone, h1, ?_, h2⟩
  have := congrArg List.length h2
  simpa using this

/-- C9 at work: the second insert of a batch of two fails, and the two stored
items are all there is afterwards; with no fault, both new rows are stored. -/
theorem CreateBatch_all_or_nothing_witness :
    ((∃ err, (itemRepository.CreateBatch exBatch exFaultyWorld).1 = some err) ∧
      (itemRepository.CreateBatch exBatch exFaultyWorld).2.2.store.items = exStore.items) ∧
    ((itemRepository.CreateBatch exBatch exWorld).1 = none ∧
      (itemRepository.CreateBatch exBatch exWorld).2.2.store.items.length = 4) :=
  ⟨(CreateBatch_all_or_nothing exBatch exFaultyWorld).1 3 (by decide) (by decide),
   ⟨((CreateBatch_all_or_nothing exBatch exWorld).2.2.1 (by decide)).1, by decide⟩⟩

/-! ## C10: a page of a user's receipts -/

theorem wrapInt_of_range {x : Int} (h0 : minInt ≤ x) (h1 : x ≤ maxInt) : wrapInt x = x := by
  unfold wrapInt
  unfold minInt at h0
  unfold maxInt at h1
  simp only [intBits] at h0 h1 ⊢
  norm_num at h0 h1 ⊢
  omega

theorem take_drop_eq_positions {α : Type} (l : List α) (k n : Nat) :
    (l.drop k).take n = (List.range n).filterMap (fun i => l[k + i]?) := by
  induction n with
  | zero => simp
  | succ m ih =>
    rw [List.take_succ, ih, List.range_succ, List.filterMap_append, List.getElem?_drop]
    congr 1

/-- `ORDER BY upload_date DESC` yields a rearrangement of the rows that is
descending in upload time. -/
theorem orderByUploadDateDesc_spec (rows : List Receipt) :
    (orderByUploadDateDesc rows).Perm rows ∧
    (orderByUploadDateDesc rows).Pairwise (fun a b => a.UploadDate ≥ b.UploadDate) := by
  unfold orderByUploadDateDesc
  haveI : IsTotal Receipt (fun a b => a.UploadDate ≥ b.UploadDate) :=
    ⟨fun a b => le_total b.UploadDate a.UploadDate⟩
  haveI : IsTrans Receipt (fun a b => a.UploadDate ≥ b.UploadDate) :=
    ⟨fun a b c hab hbc => le_trans hbc hab⟩
  exact ⟨List.perm_insertionSort _ rows, List.sorted_insertionSort _ rows⟩

/-- What `FindByUserID` returns when the store answers both statements and the
offset fits a Go `int`. -/
theorem FindByUserID_ok (userID page limit : Int) (w : World)
    (hpage : 1 ≤ page) (hpmax : page ≤ maxInt) (hlimit : 0 ≤ limit)
    (hoff : (page - 1) * limit ≤ maxInt) (hans : w.answers 2 = true) :
    (receiptRepository.FindByUserID userID page limit w).1 =
      .ok (((orderByUploadDateDesc (w.store.receipts.filter (fun r => r.UserID == userID))).drop
              ((page - 1) * limit).toNat).take limit.toNat,
           ((w.store.receipts.filter (fun r => r.UserID == userID)).length : Int)) := by
  obtain ⟨h0, h1⟩ := (answers_two_iff w).mp hans
  have hmin : minInt ≤ 0 := by decide
  have hw1 : wrapInt (page - 1) = page - 1 :=
    wrapInt_of_range (by omega) (by omega)
  have hnn : 0 ≤ (page - 1) * limit := mul_nonneg (by omega) hlimit
  have hw2 : wrapInt ((page - 1) * limit) = (page - 1) * limit :=
    wrapInt_of_range (by omega) hoff
  unfold receiptRepository.FindByUserID countReceiptsByUserID queryReceiptsByUserID World.record
  simp only [send_eq, h0, hw1, hw2]
  simp only [h1, not_lt.mpr hlimit, not_lt.mpr hnn, ↓reduceIte]

/-- C10, as stated, fails where the offset overflows the Go `int`: with
`page = 2^62 + 1` and `limit = 4`, both positive Go ints, `(page - 1) * limit`
is `2^64` and wraps to `0`, so `FindByUserID` returns the first page (the one
receipt of user 1), whereas positions `2^64 .. 2^64 + 3` of the user's sorted
receipts hold nothing. -/
theorem FindByUserID_offset_overflow :
    1 ≤ exHugePage ∧ exHugePage ≤ maxInt ∧ (1 : Int) ≤ 4 ∧ exWorld.answers 2 = true ∧
    wrapInt (wrapInt (exHugePage - 1) * 4) = 0 ∧
    (receiptRepository.FindByUserID 1 exHugePage 4 exWorld).1 = .ok ([exReceipt], 1) ∧
    pageAt (orderByUploadDateDesc (exWorld.store.receipts.filter (fun r => r.UserID == 1)))
      exHugePage 4 = [] := by
  refine ⟨by decide, by decide, by decide, by decide, by decide, by decide, by decide⟩

/-- Whatever the page and the limit, a list returned by `FindByUserID` is a
run of at most `limit` consecutive elements of the user's receipts in
descending upload time. -/
theorem FindByUserID_shape (userID page limit : Int) (w : World)
    (receipts : List Receipt) (total : Int)
    (h : (receiptRepository.FindByUserID userID page limit w).1 = .ok (receipts, total)) :
    0 ≤ limit ∧ ∃ k : Nat, receipts =
      ((orderByUploadDateDesc (w.store.receipts.filter (fun r => r.UserID == userID))).drop
        k).take limit.toNat := by
  unfold receiptRepository.FindByUserID countReceiptsByUserID queryReceiptsByUserID
    World.record at h
  simp only [send_eq] at h
  cases h0 : w.faults.head?.join with
  | some msg => rw [h0] at h; simp at h
  | none =>
    rw [h0] at h
    simp only at h
    cases h1 : w.faults.tail.head?.join with
    | some msg => rw [h1] at h; simp at h
    | none =>
      rw [h1] at h
      simp only at h
      by_cases hl : limit < 0
      · rw [if_pos hl] at h
        simp at h
      · rw [if_neg hl] at h
        by_cases ho : wrapInt (wrapInt (page - 1) * limit) < 0
        · rw [if_pos ho] at h
          simp at h
        · rw [if_neg ho] at h
          simp only [Except.ok.injEq, Prod.mk.injEq] at h
          exact ⟨not_lt.mp hl, _, h.1.symm⟩

/-- C10 (amended). For every world, user id, page and limit: every list that
`FindByUserID` returns has at most `limit` receipts, all stored and owned by
`userID`, descending in upload time. And for Go ints `page ≥ 1`, `limit ≥ 1`
whose offset `(page - 1) * limit` fits a Go `int`, when the store answers both
statements, `FindByUserID` does return a list, and it is exactly the elements
at positions `(page-1)*limit .. (page-1)*limit + limit - 1` of the user's
receipts sorted by upload time descending (a rearrangement of the user's rows
that is descending in upload time, the same for every page). -/
theorem FindByUserID_page (userID page limit : Int) (w : World) :
    (∀ receipts total,
      (receiptRepository.FindByUserID userID page limit w).1 = .ok (receipts, total) →
      (receipts.length : Int) ≤ limit ∧
      (∀ r ∈ receipts, r ∈ w.store.receipts ∧ r.UserID = userID) ∧
      receipts.Pairwise (fun a b => a.UploadDate ≥ b.UploadDate)) ∧
    (1 ≤ page → 1 ≤ limit → page ≤ maxInt → (page - 1) * limit ≤ maxInt →
      w.answers 2 = true →
      ∃ receipts total,
        (receiptRepository.FindByUserID userID page limit w).1 = .ok (receipts, total) ∧
        receipts = pageAt
          (orderByUploadDateDesc (w.store.receipts.filter (fun r => r.UserID == userID)))
          page limit ∧
        (orderByUploadDateDesc (w.store.receipts.filter (fun r => r.UserID == userID))).Perm
          (w.store.receipts.filter (fun r => r.UserID == userID)) ∧
        (orderByUploadDateDesc (w.store.receipts.filter (fun r => r.UserID == userID))).Pairwise
          (fun a b => a.UploadDate ≥ b.UploadDate)) := by
  obtain ⟨hperm, hsorted⟩ :=
    orderByUploadDateDesc_spec (w.store.receipts.filter (fun r => r.UserID == userID))
  refine ⟨?_, ?_⟩
  · intro receipts total h
    obtain ⟨hnn, k, hk⟩ := FindByUserID_shape userID page limit w receipts total h
    subst hk
    refine ⟨?_, ?_, ?_⟩
    · have := List.length_take_le limit.toNat
        ((orderByUploadDateDesc (w.store.receipts.filter (fun r => r.UserID == userID))).drop k)
      omega
    · intro r hr
      have h1 := List.mem_of_mem_drop (List.mem_of_mem_take hr)
      have h2 := (hperm.mem_iff).mp h1
      rw [List.mem_filter] at h2
      exact ⟨h2.1, by simpa using h2.2⟩
    · exact (hsorted.sublist (List.drop_sublist _ _)).sublist (List.take_sublist _ _)
  · intro hpage hlimit hpmax hoff hans
    refine ⟨_, _, FindByUserID_ok userID page limit w hpage hpmax (by omega) hoff hans,
      ?_, hperm, hsorted⟩
    unfold pageAt
    exact take_drop_eq_positions _ _ _

/-- C10 at work: user 1 has four receipts, uploaded at 10, 20, 30 and 40 (ids 1
to 4). Page 2 of 2 holds the receipts 2 and 1, in that order, out of a total of
4; and at the overflowing page `2^62 + 1` of 4, where the first page comes back,
the list still has at most 4 receipts of user 1 in descending upload time. -/
theorem FindByUserID_page_witness :
    (∃ receipts total,
      (receiptRepository.FindByUserID 1 2 2 exMixedWorld).1 = .ok (receipts, total) ∧
      receipts.map (fun r => r.ID) = [2, 1] ∧
      receipts.map (fun r => r.UploadDate) = [20, 10] ∧ total = 4) ∧
    (∃ receipts total,
      (receiptRepository.FindByUserID 1 exHugePage 4 exMixedWorld).1 = .ok (receipts, total) ∧
      receipts.map (fun r => r.ID) = [4, 3, 2, 1] ∧
      (receipts.length : Int) ≤ 4 ∧
      (∀ r ∈ receipts, r ∈ exMixedWorld.store.receipts ∧ r.UserID = 1) ∧
      receipts.Pairwise (fun a b => a.UploadDate ≥ b.UploadDate)) := by
  refine ⟨?_, ?_⟩
  · obtain ⟨receipts, total, hok, heq, -, -⟩ :=
      (FindByUserID_page 1 2 2 exMixedWorld).2 (by decide) (by decide) (by decide)
        (by decide) (by decide)
    have hrun : (receiptRepository.FindByUserID 1 2 2 exMixedWorld).1
        = .ok (pageAt (orderByUploadDateDesc
            (exMixedWorld.store.receipts.filter (fun r => r.UserID == 1))) 2 2, 4) := by
      decide
    rw [hok] at hrun
    simp only [Except.ok.injEq, Prod.mk.injEq] at hrun
    refine ⟨receipts, total, hok, ?_, ?_, hrun.2⟩
    · rw [heq]; decide
    · rw [heq]; decide
  · have hok : (receiptRepository.FindByUserID 1 exHugePage 4 exMixedWorld).1
        = .ok (orderByUploadDateDesc
            (exMixedWorld.store.receipts.filter (fun r => r.UserID == 1)), 4) := by
      decide
    obtain ⟨h1, h2, h3⟩ := (FindByUserID_page 1 exHugePage 4 exMixedWorld).1 _ _ hok
    exact ⟨_, _, hok, by decide, h1, h2, h3⟩

/-! ## C11: the total count -/

/-- Whatever the page and the limit, a total returned by `FindByUserID` is the
number of rows of the user. -/
theorem FindByUserID_total (userID page limit : Int) (w : World)
    (receipts : List Receipt) (total : Int)
    (h : (receiptRepository.FindByUserID userID page limit w).1 = .ok (receipts, total)) :
    total = ((w.store.receipts.filter (fun r => r.UserID == userID)).length : Int) := by
  unfold receiptRepository.FindByUserID countReceiptsByUserID queryReceiptsByUserID
    World.record at h
  simp only [send_eq] at h
  cases h0 : w.faults.head?.join with
  | some msg => rw [h0] at h; simp at h
  | none =>
    rw [h0] at h
    simp only at h
    cases h1 : w.faults.tail.head?.join with
    | some msg => rw [h1] at h; simp at h
    | none =>
      rw [h1] at h
      simp only at h
      split at h
      · simp at h
      · simp only [Except.ok.injEq, Prod.mk.injEq] at h
        exact h.2.symm

/-- The first page with a limit that covers all rows of the user lists every one
of them. -/
theorem FindByUserID_lists_all (userID limit : Int) (w : World)
    (hlimit : ((w.store.receipts.filter (fun r => r.UserID == userID)).length : Int) ≤ limit)
    (hans : w.answers 2 = true) :
    ∃ receipts total,
      (receiptRepository.FindByUserID userID 1 limit w).1 = .ok (receipts, total) ∧
      receipts.Perm (w.store.receipts.filter (fun r => r.UserID == userID)) := by
  have hnn : (0 : Int) ≤ limit := le_trans (Int.ofNat_nonneg _) hlimit
  have hok := FindByUserID_ok userID 1 limit w (le_refl 1) (by decide) hnn
    (by simp only [sub_self, zero_mul]; decide) hans
  refine ⟨_, _, hok, ?_⟩
  obtain ⟨hperm, -⟩ :=
    orderByUploadDateDesc_spec (w.store.receipts.filter (fun r => r.UserID == userID))
  simp only [sub_self, zero_mul, Int.toNat_zero, List.drop_zero]
  rw [List.take_of_length_le]
  · exact hperm
  · rw [hperm.length_eq]
    omega

/-- C11. For every world and user id, whatever the page and the limit, the
total that `FindByUserID` returns (and that `GetReceiptsByUserID`, which is the
same call, returns) is the number of all stored receipts whose owner is
`userID`, with no condition on their status; the call does return it whenever
the store answers both statements and the paging values are in range; and with
a limit that covers them, the first page lists every receipt of the user,
whatever its status. -/
theorem FindByUserID_total_independent (userID : Int) (w : World) :
    (∀ page limit receipts total,
      (receiptRepository.FindByUserID userID page limit w).1 = .ok (receipts, total) →
      total = ((w.store.receipts.filter (fun r => r.UserID == userID)).length : Int)) ∧
    (∀ page limit,
      receiptService.GetReceiptsByUserID userID page limit w
        = receiptRepository.FindByUserID userID page limit w) ∧
    (∀ page limit receipts total,
      (receiptService.GetReceiptsByUserID userID page limit w).1 = .ok (receipts, total) →
      total = ((w.store.receipts.filter (fun r => r.UserID == userID)).length : Int)) ∧
    (∀ page limit, 1 ≤ page → page ≤ maxInt → 0 ≤ limit → (page - 1) * limit ≤ maxInt →
      w.answers 2 = true →
      ∃ receipts, (receiptRepository.FindByUserID userID page limit w).1
        = .ok (receipts, ((w.store.receipts.filter (fun r => r.UserID == userID)).length : Int))) ∧
    (∀ limit, ((w.store.receipts.filter (fun r => r.UserID == userID)).length : Int) ≤ limit →
      w.answers 2 = true →
      ∃ receipts total,
        (receiptRepository.FindByUserID userID 1 limit w).1 = .ok (receipts, total) ∧
        receipts.Perm (w.store.receipts.filter (fun r => r.UserID == userID))) := by
  refine ⟨?_, fun _ _ => rfl, ?_, ?_, ?_⟩
  · intro page limit receipts total h
    exact FindByUserID_total userID page limit w receipts total h
  · intro page limit receipts total h
    exact FindByUserID_total userID page limit w receipts total h
  · intro page limit hp hpm hl hoff hans
    exact ⟨_, FindByUserID_ok userID page limit w hp hpm hl hoff hans⟩
  · intro limit hl hans
    exact FindByUserID_lists_all userID limit w hl hans

/-- C11 at work: user 1 has four receipts, one completed, one failed, one
pending and one soft-deleted; the total is 4 on page 1 of 2 and on page 3 of 1,
and a page of ten lists all four. -/
theorem FindByUserID_total_independent_witness :
    (∃ receipts, (receiptRepository.FindByUserID 1 1 2 exMixedWorld).1 = .ok (receipts, 4)) ∧
    (∃ receipts, (receiptRepository.FindByUserID 1 3 1 exMixedWorld).1 = .ok (receipts, 4)) ∧
    (∃ receipts total,
      (receiptRepository.FindByUserID 1 1 10 exMixedWorld).1 = .ok (receipts, total) ∧
      receipts.Perm (exMixedWorld.store.receipts.filter (fun r => r.UserID == 1))) :=
  have h := FindByUserID_total_independent 1 exMixedWorld
  ⟨h.2.2.2.1 1 2 (by decide) (by decide) (by decide) (by decide) (by decide),
   h.2.2.2.1 3 1 (by decide) (by decide) (by decide) (by decide) (by decide),
   h.2.2.2.2 10 (by decide) (by decide)⟩

/-! ## C12: spending statistics -/

/-- The `WHERE` clause of the statistics selects the completed receipts of the
user. -/
theorem stats_rows_eq (s : Store) (userID : Int) :
    s.receipts.filter (fun r => r.UserID == userID && r.Status == "completed")
      = completedReceiptsOf s userID := by
  unfold completedReceiptsOf
  apply List.filter_congr
  intro r _
  rw [Bool.eq_iff_iff]
  simp [StatusCompleted]

/-- What `GetStatsByUserID` returns, by the fate of its statement: the
aggregates are taken over the completed receipts of the user and over nothing
else, in whatever `float64` arithmetic the store and Go apply. -/
theorem GetStatsByUserID_result (fa : FloatArith) (userID : Int) (w : World) :
    (receiptRepository.GetStatsByUserID fa userID w).1 =
      match w.faults.head?.join with
      | some msg => .error (.wrapf "failed to get stats: " (.driver msg))
      | none =>
        .ok [("total_receipts", .int ((completedReceiptsOf w.store userID).length : Int)),
             ("total_spending", .float64 (sqlCoalesce (sqlSum fa
                ((completedReceiptsOf w.store userID).map (fun r => r.TotalSpending))) 0)),
             ("total_discount", .float64 (sqlCoalesce (sqlSum fa
                ((completedReceiptsOf w.store userID).map (fun r => r.TotalDiscount))) 0)),
             ("average_spending", .float64 (sqlCoalesce (sqlAvg fa
                ((completedReceiptsOf w.store userID).map (fun r => r.TotalSpending))) 0)),
             ("net_spending", .float64 (fa.sub
                (sqlCoalesce (sqlSum fa
                  ((completedReceiptsOf w.store userID).map (fun r => r.TotalSpending))) 0)
                (sqlCoalesce (sqlSum fa
                  ((completedReceiptsOf w.store userID).map (fun r => r.TotalDiscount))) 0)))] := by
  unfold receiptRepository.GetStatsByUserID queryStatsByUserID World.record
  simp only [send_eq]
  cases h0 : w.faults.head?.join with
  | some msg => simp
  | none => simp only [stats_rows_eq]

/-- `GetStatsByUserID` reads: the store is unchanged. -/
theorem GetStatsByUserID_store (fa : FloatArith) (userID : Int) (w : World) :
    (receiptRepository.GetStatsByUserID fa userID w).2.store = w.store := by
  unfold receiptRepository.GetStatsByUserID queryStatsByUserID World.record
  simp only [send_eq]
  cases h0 : w.faults.head?.join <;> simp

/-- C12. For every `float64` arithmetic, every world and every user id with no
stored receipt of status "completed" (no receipt at all, or only receipts of
other statuses), whenever the store answers the statement, `GetStatsByUserID`
(of the repository and of the service, which passes through) returns no error
and the map `{total_receipts: 0, total_spending: 0, total_discount: 0,
average_spending: 0, net_spending: 0}`, and leaves the store unchanged. -/
theorem GetStatsByUserID_no_completed (fa : FloatArith) (userID : Int) (w : World)
    (hnone : ∀ r ∈ w.store.receipts, r.UserID = userID → r.Status ≠ StatusCompleted)
    (hans : w.answers 1 = true) :
    (receiptRepository.GetStatsByUserID fa userID w).1
      = .ok [("total_receipts", .int 0), ("total_spending", .float64 0),
             ("total_discount", .float64 0), ("average_spending", .float64 0),
             ("net_spending", .float64 0)] ∧
    (receiptService.GetStatsByUserID fa userID w).1
      = (receiptRepository.GetStatsByUserID fa userID w).1 ∧
    (receiptRepository.GetStatsByUserID fa userID w).2.store = w.store := by
  have hrows : completedReceiptsOf w.store userID = [] := by
    unfold completedReceiptsOf
    rw [List.filter_eq_nil_iff]
    intro r hr
    simp only [decide_eq_true_eq, not_and]
    exact hnone r hr
  refine ⟨?_, rfl, GetStatsByUserID_store fa userID w⟩
  rw [GetStatsByUserID_result, (answers_one_iff w).mp hans, hrows]
  simp [sqlSum, sqlAvg, sqlCoalesce, fa.sub_zero_zero]

/-- C12 at work: user 3 has no receipt and user 4 only a failed one. -/
theorem GetStatsByUserID_no_completed_witness :
    (receiptRepository.GetStatsByUserID exArith 3 exMixedWorld).1
      = .ok [("total_receipts", .int 0), ("total_spending", .float64 0),
             ("total_discount", .float64 0), ("average_spending", .float64 0),
             ("net_spending", .float64 0)] ∧
    (receiptRepository.GetStatsByUserID exArith 4 exMixedWorld).1
      = .ok [("total_receipts", .int 0), ("total_spending", .float64 0),
             ("total_discount", .float64 0), ("average_spending", .float64 0),
             ("net_spending", .float64 0)] :=
  ⟨(GetStatsByUserID_no_completed exArith 3 exMixedWorld (by decide) (by decide)).1,
   (GetStatsByUserID_no_completed exArith 4 exMixedWorld (by decide) (by decide)).1⟩

/-! ## C20: receipt and items are not created atomically -/

/-- C20. For every request with a non-nil phone and a non-empty item list, in a
world whose store keeps the schema constraints: if the receipt insert succeeds
and `CreateBatch` then fails, `CreateReceipt` returns the wrapped batch error
and no value, its repository calls are the insert and the batch and nothing
else (no delete), and the store afterwards is the old one plus the new receipt
row (owner `userID`, status "completed", the request's `TotalItems`) with the
item table as before, so the new receipt has no items; if the receipt insert
fails, `CreateReceipt` returns the wrapped insert error, the insert is its only
repository call (no `CreateBatch`), and the store is unchanged. -/
theorem CreateReceipt_not_atomic (userID : Int) (req : CreateReceiptRequest) (phone : Int)
    (imageURL filename : String) (fileSize : Int) (w : World)
    (hwf : w.store.wf) (hp : req.Phone = some phone) (hitems : req.Items ≠ []) :
    (∀ err,
      (receiptRepository.Create (newReceipt userID req phone imageURL filename fileSize) w).1
        = none →
      (itemRepository.CreateBatch
        (newItems (receiptRepository.Create
          (newReceipt userID req phone imageURL filename fileSize) w).2.1.ID req.Items)
        (receiptRepository.Create
          (newReceipt userID req phone imageURL filename fileSize) w).2.2).1 = some err →
      (receiptService.CreateReceipt userID req imageURL filename fileSize w).1
        = .error (.wrapf "failed to create items:  " err) ∧
      ∃ row,
        row = insertedReceipt (newReceipt userID req phone imageURL filename fileSize)
          w.clock w ∧
        row.UserID = userID ∧ row.Status = "completed" ∧ row.TotalItems = req.TotalItems ∧
        (receiptService.CreateReceipt userID req imageURL filename fileSize w).2.store.receipts
          = w.store.receipts ++ [row] ∧
        (receiptService.CreateReceipt userID req imageURL filename fileSize w).2.store.items
          = w.store.items ∧
        (receiptService.CreateReceipt userID req imageURL filename fileSize w).2.store.items.filter
          (fun it => it.ReceiptID == row.ID) = [] ∧
        w.callsSince (receiptService.CreateReceipt userID req imageURL filename fileSize w).2
          = [Call.receiptCreate (newReceipt userID req phone imageURL filename fileSize),
             Call.itemCreateBatch (newItems row.ID req.Items)]) ∧
    (∀ err,
      (receiptRepository.Create (newReceipt userID req phone imageURL filename fileSize) w).1
        = some err →
      (receiptService.CreateReceipt userID req imageURL filename fileSize w).1
        = .error (.wrapf "failed to create receipt:  " err) ∧
      (receiptService.CreateReceipt userID req imageURL filename fileSize w).2.store = w.store ∧
      w.callsSince (receiptService.CreateReceipt userID req imageURL filename fileSize w).2
        = [Call.receiptCreate (newReceipt userID req phone imageURL filename fileSize)]) := by
  have hcalls := CreateReceipt_calls userID req imageURL filename fileSize w
  rw [hp] at hcalls
  simp only at hcalls
  rw [hcalls]
  unfold receiptService.CreateReceipt
  rw [hp]
  simp only
  obtain ⟨-, hfail, hok, hsame, -⟩ :=
    receiptCreate_cases (newReceipt userID req phone imageURL filename fileSize) w
  generalize receiptRepository.Create (newReceipt userID req phone imageURL filename fileSize) w
    = r at hfail hok hsame
  obtain ⟨cerr, row, w2⟩ := r
  simp only at hfail hok hsame ⊢
  refine ⟨?_, ?_⟩
  · intro err hc hb
    subst hc
    obtain ⟨hrow, hrecs, -⟩ := hok rfl
    have hlen : (newItems row.ID req.Items).length > 0 := by
      cases hh : req.Items with
      | nil => exact absurd hh hitems
      | cons a t => simp [newItems]
    simp only [hlen, ↓reduceIte]
    obtain ⟨-, hbfail, -, hbrec, -⟩ := CreateBatch_cases (newItems row.ID req.Items) w2
    generalize itemRepository.CreateBatch (newItems row.ID req.Items) w2 = b at hb hbfail hbrec
    obtain ⟨berr, out, w3⟩ := b
    simp only at hb hbfail hbrec
    subst hb
    have hit : w3.store.items = w.store.items := by rw [hbfail (by simp), hsame]
    refine ⟨rfl, row, hrow, by rw [hrow]; rfl, by rw [hrow]; rfl, by rw [hrow]; rfl,
      by rw [hbrec, hrecs], hit, ?_, by simp [hitems]⟩
    simp only
    rw [hit, List.filter_eq_nil_iff]
    intro it hmem
    have h1 := hwf.2.2.2.2 it hmem
    have h2 : row.ID = w.store.receiptSeq := by rw [hrow]; rfl
    simp only [beq_iff_eq]
    omega
  · intro err hc
    subst hc
    exact ⟨rfl, hfail (by simp), by simp⟩

/-- C20 at work: the insert of the first item fails after the receipt was
stored; the receipt stays, with no items. -/
theorem CreateReceipt_not_atomic_witness :
    (receiptService.CreateReceipt 1 exRequest "img" "f.png" 10 exFaultyWorld).1
      = .error (.wrapf "failed to create items:  "
          (.wrapf "failed to insert item: " (.driver "pq: connection reset"))) ∧
    (receiptService.CreateReceipt 1 exRequest "img" "f.png" 10 exFaultyWorld).2.store.receipts
      = exStore.receipts ++ [exNewReceipt] ∧
    (receiptService.CreateReceipt 1 exRequest "img" "f.png" 10 exFaultyWorld).2.store.items
      = exStore.items :=
  have h := (CreateReceipt_not_atomic 1 exRequest 62811 "img" "f.png" 10 exFaultyWorld
    (by decide) (by decide) (by decide)).1
      (.wrapf "failed to insert item: " (.driver "pq: connection reset")) (by decide) (by decide)
  ⟨h.1, by decide, by decide⟩

/-! ## C17: what a receipt update changes -/

/-- `UpdateReceipt` by the owner with a non-nil phone, statement by statement:
the lookup, the update and the read of the items. -/
theorem UpdateReceipt_owner {w : World} {R : Receipt} {userID phone : Int}
    {req : CreateReceiptRequest}
    (hfind : w.store.receipts.find? (fun r => r.ID == R.ID) = some R)
    (hown : R.UserID = userID) (hp : req.Phone = some phone) :
    ((receiptService.UpdateReceipt R.ID userID req w).1
        = .ok { Receipt := R.rewritten req phone w.clock,
                Items := orderByIDAsc (w.store.items.filter (fun it => it.ReceiptID == R.ID)) } ∨
      ∃ err, (receiptService.UpdateReceipt R.ID userID req w).1 = .error err) ∧
    ((∃ v, (receiptService.UpdateReceipt R.ID userID req w).1 = .ok v) →
      w.answers 3 = true ∧
      (receiptService.UpdateReceipt R.ID userID req w).2.store =
        { w.store with
          receipts := w.store.receipts.map
            (fun r => if r.ID == R.ID then
              updatedReceipt (R.rewritten req phone w.clock) w.clock w r else r) }) := by
  subst hown
  have hany : w.store.receipts.any (fun r => r.ID == R.ID) = true := by
    rw [List.any_eq_true]
    exact ⟨R, List.mem_of_find?_eq_some hfind, by simp⟩
  have hA : w.answers 3 = true ↔ (w.faults.head?.join = none ∧
      w.faults.tail.head?.join = none ∧ w.faults.tail.tail.head?.join = none) := by
    unfold World.answers
    cases w.faults with
    | nil => simp
    | cons f r1 =>
      cases r1 with
      | nil => cases f <;> simp
      | cons g r2 =>
        cases r2 with
        | nil => cases f <;> cases g <;> simp
        | cons h r3 => cases f <;> cases g <;> cases h <;> simp
  rw [hA]
  unfold receiptService.UpdateReceipt receiptRepository.FindByID queryReceiptByID
    receiptRepository.Update itemRepository.FindByReceiptID World.record
  simp only [send_eq]
  cases h0 : w.faults.head?.join with
  | some msg => simp
  | none =>
    simp only [hfind, hp, ne_eq, not_true_eq_false, ↓reduceIte]
    cases h1 : w.faults.tail.head?.join with
    | some msg => simp
    | none =>
      simp only [hany, ↓reduceIte]
      cases h2 : w.faults.tail.tail.head?.join with
      | some msg => simp
      | none =>
        simp [Receipt.rewritten, updatedReceipt]

/-- C17. In a world whose store keeps the schema constraints, for a stored
receipt `R` owned by the caller and a request with a non-nil phone, whenever
`UpdateReceipt` succeeds with view `v`: the receipt of `v` is `R` with its store
name, address, phone, total items, total spending, total discount and the two
update timestamps rewritten, and with the same id, UUID, owner, status, date,
image reference, original filename, file size, upload date and creation
timestamps; the store afterwards is the old store with `R` replaced by that
receipt, every other receipt, the item table and the sequences being as
before; and the items of `v` are the items of `R` as `FindByReceiptID` reads
them. -/
theorem UpdateReceipt_frame (w : World) (R : Receipt) (userID phone : Int)
    (req : CreateReceiptRequest) (v : ReceiptWithItems)
    (hwf : w.store.wf) (hR : R ∈ w.store.receipts) (hown : R.UserID = userID)
    (hp : req.Phone = some phone)
    (hok : (receiptService.UpdateReceipt R.ID userID req w).1 = .ok v) :
    v.Receipt = R.rewritten req phone w.clock ∧
    (v.Receipt.ID = R.ID ∧ v.Receipt.UUID = R.UUID ∧ v.Receipt.UserID = R.UserID ∧
      v.Receipt.Status = R.Status ∧ v.Receipt.Date = R.Date ∧
      v.Receipt.ImageURL = R.ImageURL ∧ v.Receipt.OriginalFilename = R.OriginalFilename ∧
      v.Receipt.FileSize = R.FileSize ∧ v.Receipt.UploadDate = R.UploadDate ∧
      v.Receipt.CreatedAt = R.CreatedAt ∧ v.Receipt.CreatedAtUnix = R.CreatedAtUnix) ∧
    (receiptService.UpdateReceipt R.ID userID req w).2.store =
      { w.store with
        receipts := w.store.receipts.map (fun r => if r = R then v.Receipt else r) } ∧
    (receiptService.UpdateReceipt R.ID userID req w).2.store.items = w.store.items ∧
    v.Items = orderByIDAsc (w.store.items.filter (fun it => it.ReceiptID == R.ID)) ∧
    (w.answers 1 = true →
      (itemRepository.FindByReceiptID R.ID w).1 = .ok v.Items) := by
  obtain ⟨hres, hstore⟩ := UpdateReceipt_owner (find_receipt_of_key hwf.1 hR) hown hp
  obtain ⟨-, hst⟩ := hstore ⟨v, hok⟩
  have hv : v = { Receipt := R.rewritten req phone w.clock,
                  Items := orderByIDAsc
                    (w.store.items.filter (fun it => it.ReceiptID == R.ID)) } := by
    rcases hres with h | ⟨err, h⟩
    · rw [h] at hok
      exact (Outcome.ok.inj hok).symm
    · rw [h] at hok
      cases hok
  have hmap : w.store.receipts.map
      (fun r => if r.ID == R.ID then
        updatedReceipt (R.rewritten req phone w.clock) w.clock w r else r)
      = w.store.receipts.map (fun r => if r = R then R.rewritten req phone w.clock else r) := by
    apply List.map_congr_left
    intro r hr
    by_cases hrR : r = R
    · subst hrR
      simp [updatedReceipt, Receipt.rewritten]
    · have hne : r.ID ≠ R.ID := fun hid => hrR (List.inj_on_of_nodup_map hwf.1 hr hR hid)
      simp [hrR, hne]
  rw [hst, hmap, hv]
  refine ⟨rfl, ⟨rfl, rfl, rfl, rfl, rfl, rfl, rfl, rfl, rfl, rfl, rfl⟩, rfl, rfl, rfl, ?_⟩
  intro hans
  unfold itemRepository.FindByReceiptID World.record
  simp only [send_eq, (answers_one_iff w).mp hans]

/-- C17 at work: user 1 rewrites receipt 1 of `exWorld`. -/
theorem UpdateReceipt_frame_witness :
    (receiptService.UpdateReceipt 1 1 exRequest exWorld).1
      = .ok { Receipt := exReceipt.rewritten exRequest 62811 1000, Items := exStore.items } ∧
    (receiptService.UpdateReceipt 1 1 exRequest exWorld).2.store
      = { exStore with receipts := [exReceipt.rewritten exRequest 62811 1000] } ∧
    (exReceipt.rewritten exRequest 62811 1000).Status = exReceipt.Status ∧
    (exReceipt.rewritten exRequest 62811 1000).ImageURL = exReceipt.ImageURL :=
  have hok : (receiptService.UpdateReceipt 1 1 exRequest exWorld).1
      = .ok { Receipt := exReceipt.rewritten exRequest 62811 1000, Items := exStore.items } := by
    decide
  have h := UpdateReceipt_frame exWorld exReceipt 1 62811 exRequest
    { Receipt := exReceipt.rewritten exRequest 62811 1000, Items := exStore.items }
    (by decide) (by decide) (by decide) (by decide) hok
  ⟨hok, Eq.trans h.2.2.1 (by decide), h.2.1.2.2.2.1, h.2.1.2.2.2.2.2.1⟩

/-! ## C18: the user response -/

/-- C18. For every two users that differ at most in their `PasswordHash`,
`ToResponse` returns the same response; and the response of a user consists of
its `ID`, its `UUID` as a string, its `Email`, `FullName`, `CreatedAt` and
`CreatedAtUnix`, and of nothing else. -/
theorem ToResponse_hides_PasswordHash :
    (∀ u1 u2 : User, { u1 with PasswordHash := u2.PasswordHash } = u2 →
      u1.ToResponse = u2.ToResponse) ∧
    (∀ (u : User) (hash : String), ({ u with PasswordHash := hash } : User).ToResponse
      = u.ToResponse) ∧
    (∀ u : User, u.ToResponse =
      { ID := u.ID, UUID := UUID.String u.UUID, Email := u.Email, FullName := u.FullName,
        CreatedAt := u.CreatedAt, CreatedAtUnix := u.CreatedAtUnix }) := by
  refine ⟨?_, fun _ _ => rfl, fun _ => rfl⟩
  intro u1 u2 h
  rw [← h]
  rfl

/-- C18 at work: the response of Alice, and of Alice with another hash. -/
theorem ToResponse_hides_PasswordHash_witness :
    exAlice.ToResponse =
      { ID := 1, UUID := "00000000-0000-0000-0000-0000000000c9", Email := "a@x.com",
        FullName := "Alice", CreatedAt := 900, CreatedAtUnix := 900 } ∧
    ({ exAlice with PasswordHash := "other" } : User).ToResponse = exAlice.ToResponse :=
  ⟨by decide, ToResponse_hides_PasswordHash.2.1 exAlice "other"⟩

/-! ## Lemmas on the user repository -/

/-- What `FindByEmail` returns, by the fate of its statement. -/
theorem FindByEmail_result (email : String) (w : World) :
    (userRepository.FindByEmail email w).1 =
      match w.faults.head?.join with
      | some msg => .error (.wrapf "failed to find user: " (.driver msg))
      | none =>
        match w.store.users.find? (fun u => u.Email == email) with
        | some u => .ok u
        | none => .error (.errorf "user not found") := by
  unfold userRepository.FindByEmail queryUser World.record
  simp only [send_eq]
  cases h0 : w.faults.head?.join with
  | some msg => simp
  | none =>
    simp only
    cases w.store.users.find? (fun u => u.Email == email) <;> simp

/-- `FindByEmail` reads: it leaves the store and the clock alone, logs itself
and uses up one statement. -/
theorem FindByEmail_frame (email : String) (w : World) :
    (userRepository.FindByEmail email w).2 =
      { w with faults := w.faults.tail, log := w.log ++ [.userFindByEmail email] } := by
  unfold userRepository.FindByEmail queryUser World.record
  simp only [send_eq]
  cases h0 : w.faults.head?.join with
  | some msg => simp
  | none =>
    simp only
    cases w.store.users.find? (fun u => u.Email == email) <;> simp

/-- What `userRepository.Create` does, by the fate of its statement and of the
unique constraint on the email. -/
theorem userCreate_cases (user : User) (w : World) :
    ((userRepository.Create user w).1 = none ↔
      (w.answers 1 = true ∧ ∀ u ∈ w.store.users, u.Email ≠ user.Email)) ∧
    ((userRepository.Create user w).1 ≠ none →
      (userRepository.Create user w).2.2.store.users = w.store.users) ∧
    ((userRepository.Create user w).1 = none →
      (userRepository.Create user w).2.1 = insertedUser user w.clock w ∧
      (userRepository.Create user w).2.2.store.users
        = w.store.users ++ [(userRepository.Create user w).2.1]) ∧
    (userRepository.Create user w).2.2.store.receipts = w.store.receipts ∧
    (userRepository.Create user w).2.2.store.items = w.store.items ∧
    (userRepository.Create user w).2.2.log = w.log ++ [.userCreate user] := by
  rw [answers_one_iff]
  unfold userRepository.Create World.record
  simp only [send_eq]
  cases h0 : w.faults.head?.join with
  | some msg => simp
  | none =>
    simp only
    by_cases hdup : w.store.users.any (fun u => u.Email == user.Email) = true
    · rw [if_pos hdup]
      have : ¬ ∀ u ∈ w.store.users, u.Email ≠ user.Email := by
        rw [List.any_eq_true] at hdup
        obtain ⟨u, hu, he⟩ := hdup
        exact fun hall => hall u hu (by simpa using he)
      simp [this]
    · rw [if_neg hdup]
      have : ∀ u ∈ w.store.users, u.Email ≠ user.Email := by
        intro u hu he
        apply hdup
        rw [List.any_eq_true]
        exact ⟨u, hu, by simpa using he⟩
      simp only [insertedUser, true_and, ne_eq, not_true_eq_false, false_implies, forall_const,
        and_self, and_true]
      exact ⟨fun _ => this, fun _ => trivial⟩

/-! ## C14: login does not tell a missing email from a wrong password -/

/-- C14. For every choice of the external functions, service and worlds:
`Login` with an email that matches no stored user, or whose lookup the driver
fails, and `Login` with an email whose lookup returns a user but whose password
fails `CompareHashAndPassword`, return the same result: the empty token, a nil
user and the error "invalid email or password". -/
theorem Login_enumeration_resistance (x : Externals) (s : authService)
    (reqA reqB : LoginRequest) (wA wB : World) (u : User) (err : GoError)
    (hA : (∀ v ∈ wA.store.users, v.Email ≠ reqA.Email) ∨ wA.answers 1 = false)
    (hB : (userRepository.FindByEmail reqB.Email wB).1 = .ok u)
    (hpw : x.CompareHashAndPassword u.PasswordHash reqB.Password = some err) :
    (authService.Login x s reqA wA).1 = (authService.Login x s reqB wB).1 ∧
    (authService.Login x s reqA wA).1 = ("", none, some (.errorf "invalid email or password")) ∧
    (authService.Login x s reqB wB).1
      = ("", none, some (.errorf "invalid email or password")) := by
  have hlookA : ∃ e, (userRepository.FindByEmail reqA.Email wA).1 = .error e := by
    rw [FindByEmail_result]
    rcases hA with h | h
    · have hnone : wA.store.users.find? (fun v => v.Email == reqA.Email) = none := by
        rw [List.find?_eq_none]
        intro v hv
        simpa using h v hv
      rw [hnone]
      cases wA.faults.head?.join <;> simp
    · cases hj : wA.faults.head?.join with
      | some msg => simp
      | none =>
        have := (answers_one_iff wA).mpr hj
        rw [this] at h
        cases h
  have hLA : (authService.Login x s reqA wA).1
      = ("", none, some (.errorf "invalid email or password")) := by
    obtain ⟨e, he⟩ := hlookA
    unfold authService.Login
    generalize userRepository.FindByEmail reqA.Email wA = r at he
    obtain ⟨res, w1⟩ := r
    simp only at he
    subst he
    rfl
  have hLB : (authService.Login x s reqB wB).1
      = ("", none, some (.errorf "invalid email or password")) := by
    unfold authService.Login
    generalize userRepository.FindByEmail reqB.Email wB = r at hB
    obtain ⟨res, w1⟩ := r
    simp only at hB
    subst hB
    simp only [hpw]
  exact ⟨hLA.trans hLB.symm, hLA, hLB⟩

/-- C14 at work: an unknown email, and Alice with a wrong password. -/
theorem Login_enumeration_resistance_witness :
    (authService.Login exExternals exAuth ⟨"nobody@x.com", "password1"⟩ exUserWorld).1
      = (authService.Login exExternals exAuth ⟨"a@x.com", "wrong"⟩ exUserWorld).1 ∧
    (authService.Login exExternals exAuth ⟨"a@x.com", "password1"⟩ exUserWorld).1
      = ("token/1/a@x.com/secret", some exAlice, none) :=
  ⟨(Login_enumeration_resistance exExternals exAuth ⟨"nobody@x.com", "password1"⟩
      ⟨"a@x.com", "wrong"⟩ exUserWorld exUserWorld exAlice
      (.errorf "crypto/bcrypt: hashedPassword is not the hash of the given password")
      (Or.inl (by decide)) (by decide) (by decide)).1,
   by decide⟩

/-! ## C15, C19: registration -/

/-- `Register`, with the world after the lookup made explicit. -/
theorem Register_eq (x : Externals) (s : authService) (req : CreateUserRequest) (w : World) :
    authService.Register x s req w =
      match (userRepository.FindByEmail req.Email w).1 with
      | .ok _ =>
        (.error (.errorf "email already registered"),
          { w with faults := w.faults.tail, log := w.log ++ [.userFindByEmail req.Email] })
      | .error _ =>
        match x.GenerateFromPassword req.Password DefaultCost with
        | .error err =>
          (.error (.wrapf "failed to hash password: " err),
            { w with faults := w.faults.tail, log := w.log ++ [.userFindByEmail req.Email] })
        | .ok hashedPassword =>
          match userRepository.Create (newUser req hashedPassword)
            { w with faults := w.faults.tail, log := w.log ++ [.userFindByEmail req.Email] } with
          | (some err, _, w2) => (.error (.wrapf "failed to create user: " err), w2)
          | (none, user, w2) => (.ok user, w2) := by
  have hfr := FindByEmail_frame req.Email w
  unfold authService.Register
  generalize userRepository.FindByEmail req.Email w = r at hfr
  obtain ⟨res, w1⟩ := r
  simp only at hfr
  subst hfr
  cases res <;> rfl

/-- The lookup of an email that some stored user has: that user's row or a
driver error, never "not found". -/
theorem FindByEmail_of_member {w : World} {u : User} {email : String}
    (hu : u ∈ w.store.users) (he : u.Email = email) :
    (∃ v, (userRepository.FindByEmail email w).1 = .ok v ∧ w.answers 1 = true) ∨
    (∃ e, (userRepository.FindByEmail email w).1 = .error e ∧ w.answers 1 = false) := by
  rw [FindByEmail_result]
  cases hj : w.faults.head?.join with
  | some msg =>
    right
    refine ⟨_, rfl, ?_⟩
    cases ha : w.answers 1 with
    | false => rfl
    | true => rw [(answers_one_iff w).mp ha] at hj; cases hj
  | none =>
    left
    cases hf : w.store.users.find? (fun v => v.Email == email) with
    | none =>
      rw [List.find?_eq_none] at hf
      exact absurd (by simpa using he) (hf u hu)
    | some v => exact ⟨v, rfl, (answers_one_iff w).mpr hj⟩

/-- What a successful `Register` has done: the password was hashed, no stored
user had the email, and the returned user is the one row added. -/
theorem Register_ok {x : Externals} {s : authService} {req : CreateUserRequest} {w : World}
    {v : User} (hok : (authService.Register x s req w).1 = .ok v) :
    ∃ hashed, x.GenerateFromPassword req.Password DefaultCost = .ok hashed ∧
      v = insertedUser (newUser req hashed) w.clock w ∧
      (authService.Register x s req w).2.store.users = w.store.users ++ [v] ∧
      (∀ u ∈ w.store.users, u.Email ≠ req.Email) := by
  rw [Register_eq] at hok ⊢
  generalize (userRepository.FindByEmail req.Email w).1 = f at hok ⊢
  cases f with
  | ok v0 => simp at hok
  | error e =>
    simp only at hok ⊢
    cases hh : x.GenerateFromPassword req.Password DefaultCost with
    | error err => rw [hh] at hok; simp at hok
    | ok hashed =>
      rw [hh] at hok
      simp only at hok ⊢
      refine ⟨hashed, rfl, ?_⟩
      obtain ⟨hiff, -, hcok, -⟩ := userCreate_cases (newUser req hashed)
        { w with faults := w.faults.tail, log := w.log ++ [.userFindByEmail req.Email] }
      generalize userRepository.Create (newUser req hashed)
        { w with faults := w.faults.tail, log := w.log ++ [.userFindByEmail req.Email] }
        = c at hok hiff hcok ⊢
      obtain ⟨cerr, cuser, w2⟩ := c
      cases cerr with
      | some e2 => simp at hok
      | none =>
        obtain ⟨hrow, husers⟩ := hcok rfl
        simp only at hrow husers hok ⊢
        have hv : cuser = v := Outcome.ok.inj hok
        subst hv
        exact ⟨hrow, husers, (hiff.mp rfl).2⟩

/-- C15. For every choice of the external functions and every world whose store
holds a user with email `req.Email`, `Register` returns an error and no user,
and the user table afterwards is the one before; whenever the store answers the
lookup, the error is "email already registered", the lookup is the only
repository call (`Create` is not invoked) and the whole store is unchanged. In
particular, after a successful `Register` a second `Register` with the same
request fails. -/
theorem Register_existing_email (x : Externals) (s : authService) (req : CreateUserRequest)
    (w : World) (u : User) (hu : u ∈ w.store.users) (he : u.Email = req.Email) :
    ((∃ err, (authService.Register x s req w).1 = .error err) ∧
      (authService.Register x s req w).2.store.users = w.store.users ∧
      (w.answers 1 = true →
        (authService.Register x s req w).1 = .error (.errorf "email already registered") ∧
        w.callsSince (authService.Register x s req w).2 = [.userFindByEmail req.Email] ∧
        (authService.Register x s req w).2.store = w.store)) ∧
    (∀ (w0 : World) (v : User), (authService.Register x s req w0).1 = .ok v →
      ∃ err, (authService.Register x s req (authService.Register x s req w0).2).1
        = .error err) := by
  have main : ∀ (w : World) (u : User), u ∈ w.store.users → u.Email = req.Email →
      ((∃ err, (authService.Register x s req w).1 = .error err) ∧
      (authService.Register x s req w).2.store.users = w.store.users ∧
      (w.answers 1 = true →
        (authService.Register x s req w).1 = .error (.errorf "email already registered") ∧
        w.callsSince (authService.Register x s req w).2 = [.userFindByEmail req.Email] ∧
        (authService.Register x s req w).2.store = w.store)) := by
    intro w u hu he
    rw [Register_eq]
    rcases FindByEmail_of_member hu he with ⟨v, hv, hans⟩ | ⟨e, hv, hans⟩
    · rw [hv]
      simp [World.callsSince]
    · rw [hv, hans]
      simp only [Bool.false_eq_true, false_implies, and_true]
      cases x.GenerateFromPassword req.Password DefaultCost with
      | error err => simp
      | ok hashed =>
        simp only
        obtain ⟨hiff, hfail, -⟩ := userCreate_cases (newUser req hashed)
          { w with faults := w.faults.tail, log := w.log ++ [.userFindByEmail req.Email] }
        have hne : (userRepository.Create (newUser req hashed)
            { w with faults := w.faults.tail,
                     log := w.log ++ [.userFindByEmail req.Email] }).1 ≠ none := by
          intro hnone
          exact (hiff.mp hnone).2 u hu he
        have hsame := hfail hne
        generalize userRepository.Create (newUser req hashed)
          { w with faults := w.faults.tail, log := w.log ++ [.userFindByEmail req.Email] }
          = c at hne hsame
        obtain ⟨cerr, cuser, w2⟩ := c
        cases cerr with
        | none => exact absurd rfl hne
        | some e2 => exact ⟨⟨_, rfl⟩, hsame⟩
  refine ⟨main w u hu he, ?_⟩
  intro w0 v hok
  have hstored : ∃ u0 ∈ (authService.Register x s req w0).2.store.users,
      u0.Email = req.Email := by
    obtain ⟨hashed, -, hv, husers, -⟩ := Register_ok hok
    exact ⟨v, by rw [husers]; simp, by rw [hv]; rfl⟩
  obtain ⟨u0, hu0, he0⟩ := hstored
  exact (main _ u0 hu0 he0).1

/-- C15 at work: Alice registers in an empty store, then registers again. -/
theorem Register_existing_email_witness :
    (∃ v, (authService.Register exExternals exAuth exRegister exEmptyWorld).1 = .ok v) ∧
    (authService.Register exExternals exAuth exRegister
      (authService.Register exExternals exAuth exRegister exEmptyWorld).2).1
        = .error (.errorf "email already registered") ∧
    (authService.Register exExternals exAuth exRegister exUserWorld).1
      = .error (.errorf "email already registered") ∧
    (authService.Register exExternals exAuth exRegister exUserWorld).2.store = exUserWorld.store :=
  have h := (Register_existing_email exExternals exAuth exRegister exUserWorld exAlice
    (by decide) (by decide)).1.2.2 (by decide)
  ⟨⟨{ ID := 1, UUID := 1, Email := "a@x.com", PasswordHash := "$2a$10$password1",
      FullName := "Alice", CreatedAt := 1000, UpdatedAt := 1000,
      CreatedAtUnix := 1000, UpdatedAtUnix := 1000 }, by decide⟩,
   by decide, h.1, h.2.2⟩

/-- C19, as stated, fails where hashing fails: the email of the request matches
no stored user, so `FindByEmail` returns a nil user, but the password is
longer than the 72 bytes `bcrypt` accepts; `Register` returns the wrapped
hashing error and its only repository call is the lookup: `Create` is not
invoked. -/
theorem Register_hash_failure :
    (userRepository.FindByEmail exLongRegister.Email exUserWorld).1
      = .error (.errorf "user not found") ∧
    exLongRegister.Password.utf8ByteSize = 86 ∧
    (authService.Register exExternals exAuth exLongRegister exUserWorld).1
      = .error (.wrapf "failed to hash password: "
          (.errorf "bcrypt: password length exceeds 72 bytes")) ∧
    exUserWorld.callsSince (authService.Register exExternals exAuth exLongRegister exUserWorld).2
      = [.userFindByEmail "b@x.com"] := by
  refine ⟨by decide, by decide, by decide, by decide⟩

/-- C19 (amended). For every choice of the external functions and every world,
whenever `FindByEmail` returns a nil user (the email is absent, or the lookup
failed with any error), `Register` ignores that error and hashes the password.
If hashing succeeds, its repository calls are the lookup and exactly one
`Create`, of a user with `Email = req.Email`, `FullName = req.FullName` and
`PasswordHash` the hash; an error of that `Create` is returned wrapped, with no
user, and otherwise the created user is returned. If hashing fails, the wrapped
hashing error is returned, `Create` is not invoked and the store is unchanged. -/
theorem Register_advisory_precheck (x : Externals) (s : authService) (req : CreateUserRequest)
    (w : World) (e : GoError)
    (hnil : (userRepository.FindByEmail req.Email w).1 = .error e) :
    (∀ hashed, x.GenerateFromPassword req.Password DefaultCost = .ok hashed →
      w.callsSince (authService.Register x s req w).2
        = [.userFindByEmail req.Email, .userCreate (newUser req hashed)] ∧
      (newUser req hashed).Email = req.Email ∧
      (newUser req hashed).FullName = req.FullName ∧
      (newUser req hashed).PasswordHash = hashed ∧
      (∀ err, (userRepository.Create (newUser req hashed)
            (userRepository.FindByEmail req.Email w).2).1 = some err →
        (authService.Register x s req w).1 = .error (.wrapf "failed to create user: " err)) ∧
      ((userRepository.Create (newUser req hashed)
            (userRepository.FindByEmail req.Email w).2).1 = none →
        (authService.Register x s req w).1
          = .ok (userRepository.Create (newUser req hashed)
              (userRepository.FindByEmail req.Email w).2).2.1)) ∧
    (∀ err, x.GenerateFromPassword req.Password DefaultCost = .error err →
      (authService.Register x s req w).1 = .error (.wrapf "failed to hash password: " err) ∧
      w.callsSince (authService.Register x s req w).2 = [.userFindByEmail req.Email] ∧
      (authService.Register x s req w).2.store = w.store) := by
  rw [Register_eq, hnil, FindByEmail_frame]
  simp only
  refine ⟨?_, ?_⟩
  · intro hashed hh
    rw [hh]
    simp only
    obtain ⟨-, -, -, -, -, hlog⟩ := userCreate_cases (newUser req hashed)
      { w with faults := w.faults.tail, log := w.log ++ [.userFindByEmail req.Email] }
    generalize userRepository.Create (newUser req hashed)
      { w with faults := w.faults.tail, log := w.log ++ [.userFindByEmail req.Email] }
      = c at hlog
    obtain ⟨cerr, cuser, w2⟩ := c
    simp only at hlog
    rw [List.append_assoc] at hlog
    have hcalls := callsSince_append w w2 _ hlog
    cases cerr with
    | some e2 =>
      refine ⟨hcalls, rfl, rfl, rfl, ?_, ?_⟩
      · intro err herr
        simp only [Option.some.injEq] at herr
        rw [herr]
      · intro hnone
        simp at hnone
    | none =>
      refine ⟨hcalls, rfl, rfl, rfl, ?_, fun _ => rfl⟩
      intro err herr
      simp at herr
  · intro err hh
    rw [hh]
    simp [World.callsSince]

/-- C19 at work: the lookup of Alice's email fails, so the pre-check passes; the
insert is attempted once and refused by the unique constraint, and that error
comes back wrapped. -/
theorem Register_advisory_precheck_witness :
    exUserFaultyWorld.callsSince
        (authService.Register exExternals exAuth exRegister exUserFaultyWorld).2
      = [.userFindByEmail "a@x.com", .userCreate (newUser exRegister "$2a$10$password1")] ∧
    (authService.Register exExternals exAuth exRegister exUserFaultyWorld).1
      = .error (.wrapf "failed to create user: "
          (.wrapf "failed to create user: " (.driver duplicateEmail))) :=
  have h := (Register_advisory_precheck exExternals exAuth exRegister exUserFaultyWorld
    (.wrapf "failed to find user: " (.driver "pq: connection reset")) (by decide)).1
      "$2a$10$password1" (by decide)
  ⟨h.1, h.2.2.2.2.1 _ (by decide)⟩

/-! ## C16: updating a row that is not there -/

/-- C16 (the code at the failing input). When the id matches no row and the
store answers, `receiptRepository.Update` and `userRepository.Update` return
`sql.ErrNoRows` wrapped as "failed to update receipt: ..." and "failed to update
user: ...", whereas `FindByID` (and, for receipts, `Delete`) return "receipt not
found" and "user not found" for the same id; the store is left unchanged. So
for receipt 7 and user 7, which are not stored, the message of `Update` is
"failed to update receipt: sql: no rows in result set". -/
theorem Update_missing_id_wraps_ErrNoRows :
    (∀ (receipt : Receipt) (w : World),
      (∀ r ∈ w.store.receipts, r.ID ≠ receipt.ID) → w.answers 1 = true →
      (receiptRepository.Update receipt w).1
        = some (.wrapf "failed to update receipt: " .ErrNoRows) ∧
      (receiptRepository.FindByID receipt.ID w).1 = .error (.errorf "receipt not found") ∧
      (receiptRepository.Delete receipt.ID w).1 = some (.errorf "receipt not found") ∧
      (receiptRepository.Update receipt w).2.2.store = w.store) ∧
    (∀ (user : User) (w : World),
      (∀ u ∈ w.store.users, u.ID ≠ user.ID) → w.answers 1 = true →
      (userRepository.Update user w).1 = some (.wrapf "failed to update user: " .ErrNoRows) ∧
      (userRepository.FindByID user.ID w).1 = .error (.errorf "user not found") ∧
      (userRepository.Update user w).2.2.store = w.store) ∧
    ((receiptRepository.Update { exReceipt with ID := 7 } exWorld).1.map GoError.Error
      = some "failed to update receipt: sql: no rows in result set" ∧
     (receiptRepository.Delete 7 exWorld).1.map GoError.Error = some "receipt not found" ∧
     (userRepository.Update { exAlice with ID := 7 } exUserWorld).1.map GoError.Error
      = some "failed to update user: sql: no rows in result set") := by
  refine ⟨?_, ?_, by decide, by decide, by decide⟩
  · intro receipt w hmiss hans
    have h0 := (answers_one_iff w).mp hans
    have hany : w.store.receipts.any (fun r => r.ID == receipt.ID) = false := by
      rw [List.any_eq_false]
      intro r hr
      simpa using hmiss r hr
    have hfilter : w.store.receipts.filter (fun r => r.ID == receipt.ID) = [] := by
      rw [List.filter_eq_nil_iff]
      intro r hr
      simpa using hmiss r hr
    refine ⟨?_, ?_, ?_, ?_⟩
    · unfold receiptRepository.Update World.record
      simp only [send_eq, h0, hany]
      rfl
    · rw [FindByID_result, send_eq]
      simp only [h0, find_receipt_none hmiss]
    · unfold receiptRepository.Delete World.record
      simp only [send_eq, h0, hfilter]
      rfl
    · unfold receiptRepository.Update World.record
      simp only [send_eq, h0, hany]
      rfl
  · intro user w hmiss hans
    have h0 := (answers_one_iff w).mp hans
    have hany : w.store.users.any (fun u => u.ID == user.ID) = false := by
      rw [List.any_eq_false]
      intro u hu
      simpa using hmiss u hu
    have hfind : w.store.users.find? (fun u => u.ID == user.ID) = none := by
      rw [List.find?_eq_none]
      intro u hu
      simpa using hmiss u hu
    refine ⟨?_, ?_, ?_⟩
    · unfold userRepository.Update World.record
      simp only [send_eq, h0, hany]
      rfl
    · unfold userRepository.FindByID queryUser World.record
      simp only [send_eq, h0, hfind]
      rfl
    · unfold userRepository.Update World.record
      simp only [send_eq, h0, hany]
      rfl

/-! ## C21: register, then log in -/

/-- What `Login` returns, step by step. -/
theorem Login_result (x : Externals) (s : authService) (req : LoginRequest) (w : World) :
    (authService.Login x s req w).1 =
      match (userRepository.FindByEmail req.Email w).1 with
      | .error _ => ("", none, some (.errorf "invalid email or password"))
      | .ok user =>
        match x.CompareHashAndPassword user.PasswordHash req.Password with
        | some _ => ("", none, some (.errorf "invalid email or password"))
        | none =>
          match x.GenerateJWT user.ID user.Email s.jwtSecret s.jwtExpireHours with
          | .error err => ("", none, some (.wrapf "failed to generate token: " err))
          | .ok token => (token, some user, none) := by
  unfold authService.Login
  generalize userRepository.FindByEmail req.Email w = r
  obtain ⟨res, w1⟩ := r
  cases res with
  | error e => rfl
  | ok user =>
    simp only
    cases x.CompareHashAndPassword user.PasswordHash req.Password with
    | some e => rfl
    | none =>
      simp only
      cases x.GenerateJWT user.ID user.Email s.jwtSecret s.jwtExpireHours <;> rfl

/-- After a successful `Register`, the lookup of the registered email returns
the registered user, as soon as the store answers it. -/
theorem FindByEmail_after_Register {x : Externals} {s : authService} {req : CreateUserRequest}
    {w : World} {v : User} (hreg : (authService.Register x s req w).1 = .ok v)
    (hans : (authService.Register x s req w).2.answers 1 = true) :
    (userRepository.FindByEmail req.Email (authService.Register x s req w).2).1 = .ok v := by
  obtain ⟨hashed, -, hv, husers, hfresh⟩ := Register_ok hreg
  have hemail : v.Email = req.Email := by rw [hv]; rfl
  have hnone : w.store.users.find? (fun u => u.Email == req.Email) = none := by
    rw [List.find?_eq_none]
    intro u hu
    simpa using hfresh u hu
  rw [FindByEmail_result, (answers_one_iff _).mp hans, husers, List.find?_append, hnone]
  simp [hemail]

/-- C21. Round trip. Let the hasher accept every password against its own hash.
Whenever `Register` of `(e, p, name)` succeeds with user `v` in a world `w`
(whose store then held no user with email `e`), then in the world it leaves,
as soon as the store answers the lookup: `v` is stored, has `Email = e` and
`FullName = name`; `Login` of `(e, p)` returns what the token helper returns for
`v.ID`, `v.Email`, the service's secret and expiry hours, so it returns that
token together with `v` and a nil error whenever a token is issued; and `Login`
of `(e, p')` for any `p'` that the hasher rejects against the stored hash
returns the empty token, a nil user and "invalid email or password". -/
theorem Register_Login_roundtrip (x : Externals) (s : authService) (e p name : String)
    (w : World) (v : User)
    (hverify : ∀ password hash, x.GenerateFromPassword password DefaultCost = .ok hash →
      x.CompareHashAndPassword hash password = none)
    (hreg : (authService.Register x s ⟨e, p, name⟩ w).1 = .ok v)
    (hans : (authService.Register x s ⟨e, p, name⟩ w).2.answers 1 = true) :
    (∀ u ∈ w.store.users, u.Email ≠ e) ∧
    v ∈ (authService.Register x s ⟨e, p, name⟩ w).2.store.users ∧
    v.Email = e ∧ v.FullName = name ∧
    (authService.Login x s ⟨e, p⟩ (authService.Register x s ⟨e, p, name⟩ w).2).1 =
      (match x.GenerateJWT v.ID v.Email s.jwtSecret s.jwtExpireHours with
       | .ok token => (token, some v, none)
       | .error err => ("", none, some (.wrapf "failed to generate token: " err))) ∧
    (∀ token, x.GenerateJWT v.ID v.Email s.jwtSecret s.jwtExpireHours = .ok token →
      (authService.Login x s ⟨e, p⟩ (authService.Register x s ⟨e, p, name⟩ w).2).1
        = (token, some v, none)) ∧
    (∀ p' err, x.CompareHashAndPassword v.PasswordHash p' = some err →
      (authService.Login x s ⟨e, p'⟩ (authService.Register x s ⟨e, p, name⟩ w).2).1
        = ("", none, some (.errorf "invalid email or password"))) := by
  obtain ⟨hashed, hh, hv, husers, hfresh⟩ := Register_ok hreg
  have hfind := FindByEmail_after_Register hreg hans
  simp only at hfind hfresh hh
  have hhash : v.PasswordHash = hashed := by rw [hv]; rfl
  have hcmp : x.CompareHashAndPassword v.PasswordHash p = none := by
    rw [hhash]
    exact hverify p hashed hh
  have hlogin : (authService.Login x s ⟨e, p⟩ (authService.Register x s ⟨e, p, name⟩ w).2).1 =
      (match x.GenerateJWT v.ID v.Email s.jwtSecret s.jwtExpireHours with
       | .ok token => (token, some v, none)
       | .error err => ("", none, some (.wrapf "failed to generate token: " err))) := by
    rw [Login_result]
    simp only [hfind, hcmp]
    cases x.GenerateJWT v.ID v.Email s.jwtSecret s.jwtExpireHours <;> rfl
  refine ⟨hfresh, by rw [husers]; simp, by rw [hv]; rfl, by rw [hv]; rfl, hlogin, ?_, ?_⟩
  · intro token htok
    rw [hlogin, htok]
  · intro p' err hrej
    rw [Login_result]
    simp only [hfind, hrej]

/-- C21 at work: Alice registers in an empty store and logs in; a wrong password
is refused. -/
theorem Register_Login_roundtrip_witness :
    (authService.Login exExternals exAuth ⟨"a@x.com", "password1"⟩
      (authService.Register exExternals exAuth exRegister exEmptyWorld).2).1
        = ("token/1/a@x.com/secret",
           some { ID := 1, UUID := 1, Email := "a@x.com", PasswordHash := "$2a$10$password1",
                  FullName := "Alice", CreatedAt := 1000, UpdatedAt := 1000,
                  CreatedAtUnix := 1000, UpdatedAtUnix := 1000 },
           none) ∧
    (authService.Login exExternals exAuth ⟨"a@x.com", "password2"⟩
      (authService.Register exExternals exAuth exRegister exEmptyWorld).2).1
        = ("", none, some (.errorf "invalid email or password")) :=
  have h := Register_Login_roundtrip exExternals exAuth "a@x.com" "password1" "Alice"
    exEmptyWorld
    { ID := 1, UUID := 1, Email := "a@x.com", PasswordHash := "$2a$10$password1",
      FullName := "Alice", CreatedAt := 1000, UpdatedAt := 1000,
      CreatedAtUnix := 1000, UpdatedAtUnix := 1000 }
    (by
      intro password hash hgen
      simp only [exExternals] at hgen ⊢
      split at hgen
      · cases hgen
      · cases hgen
        simp)
    (by decide) (by decide)
  ⟨h.2.2.2.2.2.1 _ (by decide),
   h.2.2.2.2.2.2 "password2"
     (.errorf "crypto/bcrypt: hashedPassword is not the hash of the given password")
     (by decide)⟩

/-! ## C22: the token middleware -/

theorem splitChars_ne_nil (sep : Char) (l : List Char) : splitChars sep l ≠ [] := by
  cases l with
  | nil => simp [splitChars]
  | cons ch rest =>
    rw [splitChars]
    split
    · simp
    · split <;> simp

/-- One piece: there is no separator. -/
theorem splitChars_eq_singleton (sep : Char) (l b : List Char) :
    splitChars sep l = [b] ↔ (l = b ∧ sep ∉ b) := by
  induction l generalizing b with
  | nil =>
    simp only [splitChars, List.cons.injEq, and_true]
    constructor
    · intro h; subst h; simp
    · intro h; exact h.1
  | cons ch rest ih =>
    rw [splitChars]
    by_cases hc : ch = sep
    · rw [if_pos hc]
      constructor
      · intro h
        simp only [List.cons.injEq] at h
        exact absurd h.2 (splitChars_ne_nil sep rest)
      · intro h
        exfalso
        apply h.2
        rw [← h.1, hc]
        exact List.mem_cons_self _ _
    · rw [if_neg hc]
      cases hs : splitChars sep rest with
      | nil => exact absurd hs (splitChars_ne_nil sep rest)
      | cons piece pieces =>
        simp only [List.cons.injEq]
        constructor
        · intro h
          obtain ⟨h1, h2⟩ := h
          subst h2
          have := (ih piece).mp hs
          subst h1
          refine ⟨by rw [this.1], ?_⟩
          intro hmem
          rcases List.mem_cons.mp hmem with hh | hh
          · exact hc hh.symm
          · exact this.2 hh
        · intro h
          obtain ⟨h1, h2⟩ := h
          subst h1
          have hrest : sep ∉ rest := fun hm => h2 (List.mem_cons_of_mem _ hm)
          have := (ih rest).mpr ⟨rfl, hrest⟩
          rw [hs] at this
          simp only [List.cons.injEq] at this
          exact ⟨by rw [this.1], this.2⟩

/-- Two pieces: there is exactly one separator, between them. -/
theorem splitChars_eq_pair (sep : Char) (l a b : List Char) :
    splitChars sep l = [a, b] ↔ (l = a ++ sep :: b ∧ sep ∉ a ∧ sep ∉ b) := by
  induction l generalizing a with
  | nil =>
    simp only [splitChars, List.cons.injEq]
    constructor
    · intro h; simp at h
    · intro h
      have := congrArg List.length h.1
      simp only [List.length_nil, List.length_append, List.length_cons] at this
      omega
  | cons ch rest ih =>
    rw [splitChars]
    by_cases hc : ch = sep
    · rw [if_pos hc]
      simp only [List.cons.injEq]
      constructor
      · intro h
        obtain ⟨h1, h2⟩ := h
        subst h1
        have := (splitChars_eq_singleton sep rest b).mp h2
        exact ⟨by rw [hc, this.1]; rfl, by simp, this.2⟩
      · intro h
        obtain ⟨h1, h2, h3⟩ := h
        cases a with
        | nil =>
          simp only [List.nil_append, List.cons.injEq] at h1
          exact ⟨rfl, (splitChars_eq_singleton sep rest b).mpr ⟨h1.2, h3⟩⟩
        | cons a0 a' =>
          simp only [List.cons_append, List.cons.injEq] at h1
          exfalso
          apply h2
          rw [← h1.1, hc]
          exact List.mem_cons_self _ _
    · rw [if_neg hc]
      cases hs : splitChars sep rest with
      | nil => exact absurd hs (splitChars_ne_nil sep rest)
      | cons piece pieces =>
        simp only [List.cons.injEq]
        constructor
        · intro h
          obtain ⟨h1, h2⟩ := h
          subst h1 h2
          have := (ih piece).mp hs
          refine ⟨by rw [this.1]; rfl, ?_, this.2.2⟩
          intro hmem
          rcases List.mem_cons.mp hmem with hh | hh
          · exact hc hh.symm
          · exact this.2.1 hh
        · intro h
          obtain ⟨h1, h2, h3⟩ := h
          cases a with
          | nil =>
            simp only [List.nil_append, List.cons.injEq] at h1
            exact absurd h1.1 hc
          | cons a0 a' =>
            simp only [List.cons_append, List.cons.injEq] at h1
            have ha' : sep ∉ a' := fun hm => h2 (List.mem_cons_of_mem _ hm)
            have := (ih a').mpr ⟨h1.2, ha', h3⟩
            rw [hs] at this
            simp only [List.cons.injEq] at this
            exact ⟨by rw [h1.1, this.1], this.2⟩

/-- The header splits into exactly "Bearer" and a token when it is "Bearer",
one space, and a token with no space in it. -/
theorem stringsSplit_bearer (header tok : String) :
    stringsSplit header ' ' = ["Bearer", tok] ↔
      (header = "Bearer " ++ tok ∧ ' ' ∉ tok.data) := by
  unfold stringsSplit
  have hmap : (splitChars ' ' header.data).map String.mk = ["Bearer", tok] ↔
      splitChars ' ' header.data = ["Bearer".data, tok.data] := by
    constructor
    · intro h
      have := congrArg (List.map String.data) h
      simpa [Function.comp_def] using this
    · intro h
      rw [h]
      rfl
  rw [hmap, splitChars_eq_pair]
  constructor
  · intro h
    obtain ⟨h1, -, h3⟩ := h
    refine ⟨?_, h3⟩
    apply String.ext
    rw [h1, String.data_append]
    rfl
  · intro h
    obtain ⟨h1, h3⟩ := h
    refine ⟨?_, by decide, h3⟩
    rw [h1, String.data_append]
    rfl

/-- `JWTMiddleware`, by the shape of the header and the verdict on the token:
either the header splits into "Bearer" and a token that is validated, and the
next handler is run on the context with the two values set, or a 401 response
with one of three messages is written, whatever the next handler is. -/
theorem JWTMiddleware_cases (ValidateJWT : String → String → Except GoError Claims)
    (jwtSecret : String) (c : Context) :
    (∃ tok claims, stringsSplit c.authorization ' ' = ["Bearer", tok] ∧
      ValidateJWT tok jwtSecret = .ok claims ∧
      ∀ next : HandlerFunc, JWTMiddleware ValidateJWT jwtSecret next c
        = next ((c.Set "user_id" (.int claims.UserID)).Set "user_email"
            (.string claims.Email))) ∨
    ((¬ ∃ tok claims, stringsSplit c.authorization ' ' = ["Bearer", tok] ∧
        ValidateJWT tok jwtSecret = .ok claims) ∧
      ∃ msg, (msg = "Missing authorization header" ∨
          msg = "Invalid authorization header format" ∨ msg = "Invalid or expired token") ∧
        ∀ next : HandlerFunc,
          JWTMiddleware ValidateJWT jwtSecret next c = ErrorResponse c 401 msg) := by
  by_cases hempty : c.authorization = ""
  · right
    refine ⟨?_, _, Or.inl rfl, ?_⟩
    · rintro ⟨tok, claims, hsplit, -⟩
      rw [hempty] at hsplit
      have : stringsSplit "" ' ' = [""] := by decide
      rw [this] at hsplit
      simp at hsplit
    · intro next
      unfold JWTMiddleware
      simp only
      rw [if_pos hempty]
  · by_cases hshape : (stringsSplit c.authorization ' ').length ≠ 2 ∨
        (stringsSplit c.authorization ' ')[0]? ≠ some "Bearer"
    · right
      refine ⟨?_, _, Or.inr (Or.inl rfl), ?_⟩
      · rintro ⟨tok, claims, hsplit, -⟩
        rw [hsplit] at hshape
        simp at hshape
      · intro next
        unfold JWTMiddleware
        simp only
        rw [if_neg hempty, if_pos hshape]
    · have hshape2 := hshape
      rw [not_or, not_not, not_not] at hshape2
      obtain ⟨hlen, hfirst⟩ := hshape2
      have hparts : ∃ tok, stringsSplit c.authorization ' ' = ["Bearer", tok] := by
        cases hp : stringsSplit c.authorization ' ' with
        | nil => rw [hp] at hlen; simp at hlen
        | cons p0 rest =>
          cases rest with
          | nil => rw [hp] at hlen; simp at hlen
          | cons p1 rest2 =>
            cases rest2 with
            | nil =>
              rw [hp] at hfirst
              simp only [List.getElem?_cons_zero, Option.some.injEq] at hfirst
              exact ⟨p1, by rw [hfirst]⟩
            | cons p2 rest3 => rw [hp] at hlen; simp at hlen
      obtain ⟨tok, htok⟩ := hparts
      have hrun : ∀ next : HandlerFunc, JWTMiddleware ValidateJWT jwtSecret next c =
          match ValidateJWT tok jwtSecret with
          | .error _ => ErrorResponse c 401 "Invalid or expired token"
          | .ok claims =>
            next ((c.Set "user_id" (.int claims.UserID)).Set "user_email"
              (.string claims.Email)) := by
        intro next
        unfold JWTMiddleware
        simp only
        rw [if_neg hempty, if_neg hshape, htok]
        simp only [List.getElem?_cons_succ, List.getElem?_cons_zero, Option.getD_some]
      cases hv : ValidateJWT tok jwtSecret with
      | ok claims =>
        left
        refine ⟨tok, claims, htok, hv, ?_⟩
        intro next
        rw [hrun next, hv]
      | error e =>
        right
        refine ⟨?_, _, Or.inr (Or.inr rfl), ?_⟩
        · rintro ⟨tok2, claims, hsplit, hok⟩
          rw [htok] at hsplit
          simp only [List.cons.injEq, and_true, true_and] at hsplit
          rw [← hsplit, hv] at hok
          cases hok
        · intro next
          rw [hrun next, hv]

/-- The context handed to the next handler holds the two values of the claims,
and is otherwise the request's context. -/
theorem context_after_Set (c : Context) (claims : Claims) :
    ((c.Set "user_id" (.int claims.UserID)).Set "user_email" (.string claims.Email)).Get
        "user_id" = some (.int claims.UserID) ∧
    ((c.Set "user_id" (.int claims.UserID)).Set "user_email" (.string claims.Email)).Get
        "user_email" = some (.string claims.Email) ∧
    GetUserID ((c.Set "user_id" (.int claims.UserID)).Set "user_email" (.string claims.Email))
      = .ok claims.UserID ∧
    ((c.Set "user_id" (.int claims.UserID)).Set "user_email"
      (.string claims.Email)).authorization = c.authorization ∧
    ((c.Set "user_id" (.int claims.UserID)).Set "user_email"
      (.string claims.Email)).response = c.response := by
  have h1 : ((c.Set "user_id" (.int claims.UserID)).Set "user_email"
      (.string claims.Email)).Get "user_id" = some (.int claims.UserID) := by
    simp [Context.Get, Context.Set, List.filter_cons, List.find?_cons]
  refine ⟨h1, ?_, ?_, rfl, rfl⟩
  · simp [Context.Get, Context.Set]
  · unfold GetUserID
    rw [h1]

/-- C22. For every token validator, secret and request context: the header
splits on the space character into exactly "Bearer" and a token precisely when
it is "Bearer", one space and a token without a space. If the header is of that
shape and the token passes validation, `JWTMiddleware` is the next handler run
on the request's context with the token's user id and email stored under
"user_id" and "user_email". For every other header (missing or empty, another
first part such as "bearer", more spaces or parts, or a token that fails
validation) it writes a 401 response and returns, and what it does is the same
for every next handler: the next handler is not run. -/
theorem JWTMiddleware_gate (ValidateJWT : String → String → Except GoError Claims)
    (jwtSecret : String) (c : Context) :
    (∀ tok, stringsSplit c.authorization ' ' = ["Bearer", tok] ↔
      (c.authorization = "Bearer " ++ tok ∧ ' ' ∉ tok.data)) ∧
    (∀ tok claims, c.authorization ≠ "" →
      stringsSplit c.authorization ' ' = ["Bearer", tok] →
      ValidateJWT tok jwtSecret = .ok claims →
      (∀ next : HandlerFunc, JWTMiddleware ValidateJWT jwtSecret next c
        = next ((c.Set "user_id" (.int claims.UserID)).Set "user_email"
            (.string claims.Email))) ∧
      ((c.Set "user_id" (.int claims.UserID)).Set "user_email" (.string claims.Email)).Get
          "user_id" = some (.int claims.UserID) ∧
      ((c.Set "user_id" (.int claims.UserID)).Set "user_email" (.string claims.Email)).Get
          "user_email" = some (.string claims.Email)) ∧
    ((¬ ∃ tok claims, c.authorization ≠ "" ∧
        stringsSplit c.authorization ' ' = ["Bearer", tok] ∧
        ValidateJWT tok jwtSecret = .ok claims) →
      ∃ msg, ∀ next : HandlerFunc,
        JWTMiddleware ValidateJWT jwtSecret next c = ErrorResponse c 401 msg ∧
        (JWTMiddleware ValidateJWT jwtSecret next c).2.response
          = some (401, { Success := false, Message := "", Data := "", Error := msg }) ∧
        (JWTMiddleware ValidateJWT jwtSecret next c).2.values = c.values) := by
  refine ⟨fun tok => stringsSplit_bearer c.authorization tok, ?_, ?_⟩
  · intro tok claims _ hsplit hok
    obtain ⟨h1, h2, -⟩ := context_after_Set c claims
    refine ⟨?_, h1, h2⟩
    rcases JWTMiddleware_cases ValidateJWT jwtSecret c with
      ⟨tok2, claims2, hsplit2, hok2, hrun⟩ | ⟨hno, -⟩
    · rw [hsplit] at hsplit2
      simp only [List.cons.injEq, and_true, true_and] at hsplit2
      subst hsplit2
      rw [hok] at hok2
      cases hok2
      exact hrun
    · exact absurd ⟨tok, claims, hsplit, hok⟩ hno
  · intro hno
    rcases JWTMiddleware_cases ValidateJWT jwtSecret c with
      ⟨tok, claims, hsplit, hok, -⟩ | ⟨-, msg, -, hrej⟩
    · exfalso
      apply hno
      refine ⟨tok, claims, ?_, hsplit, hok⟩
      intro hempty
      rw [hempty] at hsplit
      have : stringsSplit "" ' ' = [""] := by decide
      rw [this] at hsplit
      simp at hsplit
    · refine ⟨msg, fun next => ?_⟩
      rw [hrej next]
      exact ⟨rfl, rfl, rfl⟩

/-- C22 at work: a valid bearer token lets the request through with the user id
in the context; no header, "bearer" in lower case, two spaces, an extra part and
a refused token are each answered with 401. -/
theorem JWTMiddleware_gate_witness :
    (JWTMiddleware exValidateJWT "secret" exNext (exContext "Bearer good")).2.response
      = some (200, { Success := true, Message := "", Data := "1", Error := "" }) ∧
    (JWTMiddleware exValidateJWT "secret" exNext (exContext "")).2.response
      = some (401, { Success := false, Message := "", Data := "",
                     Error := "Missing authorization header" }) ∧
    (JWTMiddleware exValidateJWT "secret" exNext (exContext "bearer good")).2.response
      = some (401, { Success := false, Message := "", Data := "",
                     Error := "Invalid authorization header format" }) ∧
    (JWTMiddleware exValidateJWT "secret" exNext (exContext "Bearer  good")).2.response
      = some (401, { Success := false, Message := "", Data := "",
                     Error := "Invalid authorization header format" }) ∧
    (JWTMiddleware exValidateJWT "secret" exNext (exContext "Bearer good more")).2.response
      = some (401, { Success := false, Message := "", Data := "",
                     Error := "Invalid authorization header format" }) ∧
    (JWTMiddleware exValidateJWT "secret" exNext (exContext "Bearer stale")).2.response
      = some (401, { Success := false, Message := "", Data := "",
                     Error := "Invalid or expired token" }) :=
  have h := (JWTMiddleware_gate exValidateJWT "secret" (exContext "Bearer good")).2.1
    "good" { UserID := 1, Email := "a@x.com" } (by decide) (by decide) (by decide)
  ⟨by rw [h.1 exNext]; decide, by decide, by decide, by decide, by decide, by decide⟩

end ReceiptBackend
